import Mathlib

/-!
Verification of the kube-dns record engine (`pkg/dns/dns.go`, `pkg/dns/util/util.go`).

Go strings are embedded as `List Char` (all strings involved are ASCII, so Go's
byte-wise operations coincide with character-wise operations).  Go maps are
embedded as association lists with insert-overwrite semantics.  Pure functions
from the source are translated definition-by-definition; the event handlers of
the reconciler become explicit state-passing functions over a `World` carrying
the informer stores and the `KubeDNS` mutable state.
-/
/-- Embedding of Go strings: a list of characters (all data here is ASCII). -/
abbrev GoStr := List Char

/-- Coerce a Lean string literal to the `GoStr` embedding. -/
def str (s : String) : GoStr := s.data

/-- `strings.Join(parts, sep)`. -/
def goJoin (sep : GoStr) : List GoStr → GoStr
  | [] => []
  | [x] => x
  | x :: y :: rest => x ++ sep ++ goJoin sep (y :: rest)

/-- `strings.Split(s, sep)` for a one-character separator.
`goSplitChar c []` is `[[]]`, matching Go's `strings.Split("", ".") = [""]`. -/
def goSplitChar (sep : Char) : GoStr → List GoStr
  | [] => [[]]
  | ch :: rest =>
    match goSplitChar sep rest with
    | [] => [[]]
    | p :: ps => if ch = sep then [] :: p :: ps else (ch :: p) :: ps

/-- `strings.HasSuffix(s, suf)`. -/
def goHasSuffix (s suf : GoStr) : Bool := suf.isSuffixOf s

/-- `strings.TrimSuffix(s, suf)`. -/
def goTrimSuffix (s suf : GoStr) : GoStr :=
  if goHasSuffix s suf then s.take (s.length - suf.length) else s

/-- `strings.TrimRight(s, ".")`: drop all trailing dots. -/
def goTrimRightDots (s : GoStr) : GoStr :=
  (s.reverse.dropWhile (fun c => c = '.')).reverse

/-- `util.ReverseArray` (functional rendering of the in-place reversal). -/
def reverseArray (l : List GoStr) : List GoStr := l.reverse

/-- Association-list lookup, embedding a Go map read (`m[k]`, second result). -/
def alookup {α β : Type} [DecidableEq α] : List (α × β) → α → Option β
  | [], _ => none
  | (k, v) :: rest, a => if k = a then some v else alookup rest a

/-- Remove a key, embedding Go's `delete(m, k)`. -/
def aerase {α β : Type} [DecidableEq α] (m : List (α × β)) (a : α) : List (α × β) :=
  m.filter (fun p => p.1 ≠ a)

/-- Insert/overwrite a key, embedding Go's `m[k] = v`. -/
def ainsert {α β : Type} [DecidableEq α] (m : List (α × β)) (a : α) (b : β) : List (α × β) :=
  (a, b) :: aerase m a

/-- Key membership in an embedded Go map. -/
def amem {α β : Type} [DecidableEq α] (m : List (α × β)) (a : α) : Bool :=
  (alookup m a).isSome

/-- The skydns `msg.Service` payload struct (all fields, in declaration order,
as needed for the `fmt.Sprintf("%v", msg)` rendering that is hashed). -/
structure SkyService where
  host : GoStr
  port : Int
  priority : Int
  weight : Int
  text : GoStr
  mail : Bool
  ttl : Nat
  targetStrip : Int
  group : GoStr
  key : GoStr
deriving DecidableEq

/-- Decimal digits of a natural number, as Go's `%v` renders it. -/
def natDigits (n : Nat) : GoStr := Nat.toDigits 10 n

/-- Go `%v` rendering of an `int`. -/
def intRepr (n : Int) : GoStr :=
  if n < 0 then '-' :: natDigits (-n).toNat else natDigits n.toNat

/-- `fmt.Sprintf("%v", msg)` for a `*msg.Service`: `&{f1 f2 ... f10}`. -/
def renderSky (m : SkyService) : GoStr :=
  str "&\x7b" ++ m.host ++ [' '] ++ intRepr m.port ++ [' '] ++ intRepr m.priority ++ [' ']
    ++ intRepr m.weight ++ [' '] ++ m.text ++ [' ']
    ++ (if m.mail then str "true" else str "false") ++ [' '] ++ natDigits m.ttl ++ [' ']
    ++ intRepr m.targetStrip ++ [' '] ++ m.group ++ [' '] ++ m.key ++ ['}']

/-- 32-bit FNV-1a over the bytes of a string (`hash/fnv`, `h.Write; h.Sum32`). -/
def fnv32a (s : GoStr) : Nat :=
  s.foldl (fun h c => ((h ^^^ c.toNat) * 16777619) % 4294967296) 2166136261

/-- `fmt.Sprintf("%x", n)`: lowercase hex, no padding. -/
def hexRepr (n : Nat) : GoStr := Nat.toDigits 16 n

/-- `util.NewServiceRecord`: payload with the default priority/weight/TTL. -/
def newServiceRecord (ip : GoStr) (port : Int) : SkyService :=
  { host := ip, port := port, priority := 10, weight := 10, text := [], mail := false,
    ttl := 30, targetStrip := 0, group := [], key := [] }

/-- `util.HashServiceRecord`: FNV-1a of the `%v` rendering, in `%x` form. -/
def hashServiceRecord (m : SkyService) : GoStr := hexRepr (fnv32a (renderSky m))

/-- `util.GetSkyMsg`: the record together with its hash label. -/
def getSkyMsg (ip : GoStr) (port : Int) : SkyService × GoStr :=
  (newServiceRecord ip port, hashServiceRecord (newServiceRecord ip port))

/-- `a`–`z`. -/
def isLowerAZ (c : Char) : Bool := 'a' ≤ c && c ≤ 'z'

/-- `0`–`9`. -/
def isDigitCh (c : Char) : Bool := '0' ≤ c && c ≤ '9'

/-- `[a-z0-9]`. -/
def isAlnumLower (c : Char) : Bool := isLowerAZ c || isDigitCh c

/-- Match of the anchored regex `first([-a-z0-9]*[a-z0-9])?` used by the
k8s.io/apimachinery label validators. -/
def labelCore (first : Char → Bool) (s : GoStr) : Bool :=
  match s with
  | [] => false
  | h :: t =>
    first h && (t.dropLast.all fun c => isAlnumLower c || c = '-') &&
      (match t.getLast? with
       | some x => isAlnumLower x
       | none => true)

/-- `validation.IsDNS1035Label` succeeds: length ≤ 63 and
regex `[a-z]([-a-z0-9]*[a-z0-9])?`. -/
def isDNS1035Label (s : GoStr) : Bool :=
  decide (s.length ≤ 63) && labelCore isLowerAZ s

/-- `validation.IsDNS1123Label` succeeds: length ≤ 63 and
regex `[a-z0-9]([-a-z0-9]*[a-z0-9])?`. -/
def isDNS1123Label (s : GoStr) : Bool :=
  decide (s.length ≤ 63) && labelCore isAlnumLower s

/-- `validation.IsDNS1123Subdomain` succeeds: length ≤ 253 and a nonempty
dot-separated sequence of DNS-1123 labels. -/
def isDNS1123Subdomain (s : GoStr) : Bool :=
  decide (s.length ≤ 253) && (goSplitChar '.' s).all (labelCore isAlnumLower)

/-- `util.ArpaSuffix`. -/
def arpaSuffix : GoStr := str ".in-addr.arpa."

/-- `util.ExtractIP`: strip the `.in-addr.arpa.` suffix, reverse the remaining
dot-separated labels and rejoin them with dots. -/
def ExtractIP (reverseName : GoStr) : GoStr × Bool :=
  if goHasSuffix reverseName arpaSuffix = false then ([], false)
  else
    let search := goTrimSuffix reverseName arpaSuffix
    (goJoin (str ".") (reverseArray (goSplitChar '.' search)), true)

/-- Decimal rendering `a.b.c.d` of four byte values. -/
def dottedQuad (a b c d : Nat) : GoStr :=
  natDigits a ++ '.' :: natDigits b ++ '.' :: natDigits c ++ '.' :: natDigits d

/-- Value of a hexadecimal digit character. -/
def hexVal (c : Char) : Option Nat :=
  if '0' ≤ c ∧ c ≤ '9' then some (c.toNat - '0'.toNat)
  else if 'a' ≤ c ∧ c ≤ 'f' then some (c.toNat - 'a'.toNat + 10)
  else if 'A' ≤ c ∧ c ≤ 'F' then some (c.toNat - 'A'.toNat + 10)
  else none

/-- One decimal octet of an IPv4 literal, Go `net` rules: at least one digit,
no leading zero, value at most 255.  Returns the value and the rest. -/
def parseV4Octet (s : GoStr) : Option (Nat × GoStr) :=
  let ds := s.takeWhile isDigitCh
  let rest := s.dropWhile isDigitCh
  if ds = [] then none
  else if ds.length > 1 ∧ ds.headD '0' = '0' then none
  else
    let v := ds.foldl (fun n c => n * 10 + (c.toNat - '0'.toNat)) 0
    if v > 255 then none else some (v, rest)

/-- Consume a `.` separator. -/
def expectDot : GoStr → Option GoStr
  | '.' :: r => some r
  | _ => none

/-- Go `net` IPv4 literal parser: exactly four dot-separated octets, nothing
trailing.  Returns the four byte values. -/
def parseIPv4 (s : GoStr) : Option (List Nat) := do
  let (a, r1) ← parseV4Octet s
  let r1 ← expectDot r1
  let (b, r2) ← parseV4Octet r1
  let r2 ← expectDot r2
  let (c, r3) ← parseV4Octet r2
  let r3 ← expectDot r3
  let (d, r4) ← parseV4Octet r3
  if r4 = [] then some [a, b, c, d] else none

/-- One hex group of an IPv6 literal: one or more hex digits whose value is
at most 0xFFFF (Go caps the field by value as it accumulates digits, so
zero-padded fields such as `00001` are accepted).  Returns the value and the
rest. -/
def parseHexGroup (s : GoStr) : Option (Nat × GoStr) :=
  let ds := s.takeWhile (fun c => (hexVal c).isSome)
  let rest := s.dropWhile (fun c => (hexVal c).isSome)
  if ds = [] then none
  else
    let v := ds.foldl (fun n c => n * 16 + ((hexVal c).getD 0)) 0
    if v > 65535 then none else some (v, rest)

/-- Final assembly of a parsed IPv6 address: expand the `::` ellipsis (which
must stand for at least one zero group) to reach 16 bytes. -/
def v6Finish (acc : List Nat) (ell : Option Nat) : Option (List Nat) :=
  if acc.length < 16 then
    match ell with
    | none => none
    | some e => some (acc.take e ++ List.replicate (16 - acc.length) 0 ++ acc.drop e)
  else
    match ell with
    | none => some acc
    | some _ => none

/-- Main loop of the Go `net` IPv6 parser: hex groups separated by colons, at
most one `::`, optionally ending in an embedded IPv4 literal in the last four
bytes.  `acc` is the list of bytes filled so far, `ell` the byte position of
the `::` if seen.  Fuel bounds the iteration count (at most eight groups). -/
def parseIPv6Loop : Nat → GoStr → List Nat → Option Nat → Option (List Nat)
  | 0, _, _, _ => none
  | fuel + 1, s, acc, ell =>
    match parseHexGroup s with
    | none => none
    | some (v, rest) =>
      match rest with
      | '.' :: _ =>
        if (ell = none → acc.length = 12) ∧ acc.length + 4 ≤ 16 then
          match parseIPv4 s with
          | some bytes => v6Finish (acc ++ bytes) ell
          | none => none
        else none
      | [] => v6Finish (acc ++ [v / 256, v % 256]) ell
      | [':'] => none
      | ':' :: ':' :: rest2 =>
        if ell ≠ none then none
        else
          let acc' := acc ++ [v / 256, v % 256]
          match rest2 with
          | [] => v6Finish acc' (some acc'.length)
          | _ =>
            if acc'.length < 16 then parseIPv6Loop fuel rest2 acc' (some acc'.length)
            else none
      | ':' :: rest2 =>
        let acc' := acc ++ [v / 256, v % 256]
        if acc'.length < 16 then parseIPv6Loop fuel rest2 acc' ell
        else none
      | _ => none

/-- Go `net` IPv6 literal parser (no zone); returns 16 bytes. -/
def parseIPv6 (sIn : GoStr) : Option (List Nat) :=
  match sIn with
  | ':' :: ':' :: rest =>
    if rest = [] then some (List.replicate 16 0)
    else parseIPv6Loop 9 rest [] (some 0)
  | _ => parseIPv6Loop 9 sIn [] none

/-- The 12-byte prefix marking an IPv4-mapped IPv6 address. -/
def v4MappedPre : List Nat := [0, 0, 0, 0, 0, 0, 0, 0, 0, 0, 255, 255]

/-- `net.ParseIP`: the first of `.`/`:` decides the family; IPv4 addresses
are stored in 16-byte IPv4-mapped form. -/
def goParseIP (s : GoStr) : Option (List Nat) :=
  match s.find? (fun c => c = '.' || c = ':') with
  | some c => if c = '.' then (parseIPv4 s).map (fun b => v4MappedPre ++ b) else parseIPv6 s
  | none => none

/-- 16-bit groups of a 16-byte address. -/
def v6Groups : List Nat → List Nat
  | hi :: lo :: rest => (hi * 256 + lo) :: v6Groups rest
  | _ => []

/-- Length of the run of zero groups starting at index `i`. -/
def zeroRunLen (gs : List Nat) (i : Nat) : Nat :=
  ((gs.drop i).takeWhile (fun g => g = 0)).length

/-- Leftmost longest run of at least two zero groups, as (start, end). -/
def bestZeroRun (gs : List Nat) : Option (Nat × Nat) :=
  let best := (List.range gs.length).foldl
    (fun (b : Nat × Nat) i => if zeroRunLen gs i > b.2 then (i, zeroRunLen gs i) else b) (0, 0)
  if best.2 ≥ 2 then some (best.1, best.1 + best.2) else none

/-- RFC 5952 rendering of eight 16-bit groups (`net.IP.String`, IPv6 arm). -/
def v6String (gs : List Nat) : GoStr :=
  match bestZeroRun gs with
  | none => goJoin [':'] (gs.map hexRepr)
  | some (e0, e1) =>
    goJoin [':'] ((gs.take e0).map hexRepr) ++ str "::" ++ goJoin [':'] ((gs.drop e1).map hexRepr)

/-- `net.IP.String` on a 16-byte address: dotted quad when IPv4-mapped,
RFC 5952 compressed hex otherwise. -/
def ipString (b : List Nat) : GoStr :=
  if b.take 12 = v4MappedPre then goJoin (str ".") ((b.drop 12).map natDigits)
  else v6String (v6Groups b)

/-- Digits-only decimal value (none when empty or non-digit). -/
def digitsVal (s : GoStr) : Option Nat :=
  if s = [] then none
  else if s.all isDigitCh then some (s.foldl (fun n c => n * 10 + (c.toNat - '0'.toNat)) 0)
  else none

/-- `strconv.Atoi`: optional sign then digits.  (Go additionally errors on
64-bit overflow; every such value is outside [1, 65535], so the [1, 65535] port range
check downstream rejects both ways.) -/
def goAtoi (s : GoStr) : Option Int :=
  match s with
  | '-' :: r => (digitsVal r).map (fun n => -(n : Int))
  | '+' :: r => (digitsVal r).map (fun n => (n : Int))
  | _ => (digitsVal s).map (fun n => (n : Int))

/-- Index of the last occurrence of `c`. -/
def lastIdxOf (c : Char) (s : GoStr) : Option Nat :=
  match s.reverse.findIdx? (fun x => x = c) with
  | some j => some (s.length - 1 - j)
  | none => none

/-- `net.SplitHostPort`: split `host:port` or `[host]:port` at the last colon,
with Go's bracket and stray-colon checks. -/
def goSplitHostPort (s : GoStr) : Option (GoStr × GoStr) :=
  match lastIdxOf ':' s with
  | none => none
  | some i =>
    match s with
    | '[' :: _ =>
      match s.findIdx? (fun x => x = ']') with
      | none => none
      | some e =>
        if e + 1 = s.length then none
        else if e + 1 = i then
          let host := (s.take e).drop 1
          if (s.drop 1).contains '[' then none
          else if (s.drop (e + 1)).contains ']' then none
          else some (host, s.drop (i + 1))
        else none
    | _ =>
      let host := s.take i
      if host.contains ':' then none
      else if s.contains '[' then none
      else if s.contains ']' then none
      else some (host, s.drop (i + 1))

instance {ε α : Type} [DecidableEq ε] [DecidableEq α] : DecidableEq (Except ε α) := fun a b =>
  match a, b with
  | .error e, .error f =>
    if h : e = f then isTrue (by rw [h]) else isFalse (fun hh => by cases hh; exact h rfl)
  | .ok x, .ok y =>
    if h : x = y then isTrue (by rw [h]) else isFalse (fun hh => by cases hh; exact h rfl)
  | .error _, .ok _ => isFalse (fun hh => by cases hh)
  | .ok _, .error _ => isFalse (fun hh => by cases hh)

/-- `util.ValidateNameserverIpAndPort`. -/
def validateNameserverIpAndPort (nameServer : GoStr) : Except GoStr (GoStr × GoStr) :=
  match goParseIP nameServer with
  | some ip => .ok (ipString ip, str "53")
  | none =>
    match goSplitHostPort nameServer with
    | none => .error (str "address error")
    | some (host, port) =>
      if (goParseIP host).isNone then .error (str "bad IP address: " ++ host)
      else
        match goAtoi port with
        | none => .error (str "bad port number: " ++ port)
        | some p =>
          if p < 1 ∨ p > 65535 then .error (str "bad port number: " ++ port)
          else .ok (host, port)

/-- The dynamic configuration snapshot (`config.Config`). -/
structure Config where
  federations : List (GoStr × GoStr)
  upstreamNameservers : List GoStr
deriving DecidableEq

/-- The static part of the `KubeDNS` struct: the authoritative domain and its
reversed label path (`domainPath`). -/
structure KubeDNSStatic where
  domain : GoStr
  domainPath : List GoStr
deriving DecidableEq

/-- `NewKubeDNS`'s derivation of `domainPath` from the cluster domain. -/
def kubeDNSDomainPath (clusterDomain : GoStr) : List GoStr :=
  reverseArray (goSplitChar '.' (goTrimRightDots clusterDomain))

/-- `serviceSubdomain`. -/
def svcLabel : GoStr := str "svc"

/-- `podSubdomain`. -/
def podLabel : GoStr := str "pod"

/-- `KubeDNS.isFederationQuery`: the guard chain of the federation grammar. -/
def isFederationQuery (kd : KubeDNSStatic) (cfg : Config) (path : List GoStr) : Bool :=
  if path.length ≠ 4 + kd.domainPath.length then false
  else if isDNS1035Label (path.getD 0 []) = false then false
  else if isDNS1123Label (path.getD 1 []) = false then false
  else if isDNS1123Label (path.getD 2 []) = false then false
  else if path.getD 3 [] ≠ svcLabel then false
  else if (kd.domainPath.enum.all fun p =>
      decide (path.getD (path.length - p.1 - 1) [] = p.2)) = false then false
  else amem cfg.federations (path.getD 2 [])

/-- `v1.ServicePort` (name, protocol, numeric port). -/
structure ServicePort where
  name : GoStr
  protocol : GoStr
  port : Int
deriving DecidableEq

/-- `v1.Service`: the fields the engine reads.  `nsName` stands for the
`Namespace` field (a Lean keyword). -/
structure KService where
  name : GoStr
  nsName : GoStr
  specType : GoStr
  clusterIP : GoStr
  clusterIPs : List GoStr
  ports : List ServicePort
  externalName : GoStr
deriving DecidableEq

/-- `v1.EndpointAddress` (empty hostname embeds an absent hostname). -/
structure EndpointAddress where
  ip : GoStr
  hostname : GoStr
deriving DecidableEq

/-- `v1.EndpointPort`. -/
structure EndpointPort where
  name : GoStr
  protocol : GoStr
  port : Int
deriving DecidableEq

/-- `v1.EndpointSubset`. -/
structure EndpointSubset where
  addresses : List EndpointAddress
  ports : List EndpointPort
deriving DecidableEq

/-- `v1.Endpoints`. -/
structure KEndpoints where
  name : GoStr
  nsName : GoStr
  subsets : List EndpointSubset
deriving DecidableEq

/-- `v1.ServiceTypeExternalName`. -/
def externalNameType : GoStr := str "ExternalName"

/-- `v1.ClusterIPNone`. -/
def clusterIPNone : GoStr := str "None"

/-- `util.IsServiceIPSet`. -/
def isServiceIPSet (service : KService) : Bool :=
  decide (service.clusterIP ≠ clusterIPNone) && decide (service.clusterIP ≠ [])

/-- `util.GetClusterIPs`. -/
def getClusterIPs (service : KService) : List GoStr :=
  if service.clusterIPs.length > 0 then service.clusterIPs else [service.clusterIP]

/-- `getHostname`. -/
def getHostname (address : EndpointAddress) : GoStr × Bool :=
  if address.hostname.length > 0 then (address.hostname, true) else ([], false)

/-- `kcache.MetaNamespaceKeyFunc`: objects are keyed by (namespace, name). -/
abbrev ObjKey := GoStr × GoStr

/-- Store key of a service. -/
def svcKey (s : KService) : ObjKey := (s.nsName, s.name)

/-- Store key of an endpoints object. -/
def epKey (e : KEndpoints) : ObjKey := (e.nsName, e.name)

/-- Modelled from the spec: a `treecache.TreeCache` node (spec §4.1; the
`pkg/dns/treecache` package of this repository is not among the provided
sources).  A node maps leaf-keys to payloads and labels to children. -/
inductive TreeCache where
  | node (entries : List (GoStr × SkyService)) (children : List (GoStr × TreeCache))

/-- The leaf entries of a node. -/
def TreeCache.entriesOf : TreeCache → List (GoStr × SkyService)
  | .node es _ => es

/-- The labeled children of a node. -/
def TreeCache.childrenOf : TreeCache → List (GoStr × TreeCache)
  | .node _ cs => cs

/-- Modelled from the spec: `treecache.NewTreeCache`. -/
def newTreeCache : TreeCache := .node [] []

/-- Modelled from the spec: `SetEntry(key, val, fqdn, path...)` inserts or
replaces the payload under `key` at the node addressed by `path`, creating
missing nodes; the `fqdn` argument is carried for diagnostics only and does
not affect the cache, so it is dropped here. -/
def TreeCache.setEntry (t : TreeCache) (key : GoStr) (val : SkyService) :
    List GoStr → TreeCache
  | [] => .node (ainsert t.entriesOf key val) t.childrenOf
  | l :: rest =>
    let child := (alookup t.childrenOf l).getD newTreeCache
    .node t.entriesOf (ainsert t.childrenOf l (child.setEntry key val rest))

/-- Modelled from the spec: `SetSubCache(label, subtree, path...)` replaces
the child `label` of the node addressed by `path` wholesale. -/
def TreeCache.setSubCache (t : TreeCache) (label : GoStr) (sub : TreeCache) :
    List GoStr → TreeCache
  | [] => .node t.entriesOf (ainsert t.childrenOf label sub)
  | l :: rest =>
    let child := (alookup t.childrenOf l).getD newTreeCache
    .node t.entriesOf (ainsert t.childrenOf l (child.setSubCache label sub rest))

/-- Modelled from the spec: `GetEntry(key, path...)`: exact leaf lookup. -/
def TreeCache.getEntry (t : TreeCache) (key : GoStr) : List GoStr → Option SkyService
  | [] => alookup t.entriesOf key
  | l :: rest =>
    match alookup t.childrenOf l with
    | some child => child.getEntry key rest
    | none => none

mutual
/-- Modelled from the spec: all payloads of a node and its descendants. -/
def TreeCache.collect : TreeCache → List SkyService
  | .node es cs => es.map Prod.snd ++ TreeCache.collectList cs

/-- Modelled from the spec: all payloads under a list of children. -/
def TreeCache.collectList : List (GoStr × TreeCache) → List SkyService
  | [] => []
  | (_, c) :: rest => TreeCache.collect c ++ TreeCache.collectList rest
end

/-- Modelled from the spec: `GetValuesForPathWithWildcards`: descend along the
path (a `*` segment descends into every child), then return every payload at
the reached nodes and their descendants. -/
def TreeCache.getValuesForPathWithWildcards (t : TreeCache) :
    (path : List GoStr) → List SkyService
  | [] => t.collect
  | l :: rest =>
    if l = str "*" then
      (t.childrenOf.map fun c => c.2.getValuesForPathWithWildcards rest).flatten
    else
      match alookup t.childrenOf l with
      | some child => child.getValuesForPathWithWildcards rest
      | none => []
  termination_by path => path.length
  decreasing_by all_goals simp

/-- Modelled from the spec: `DeletePath(path...)`: remove the node at the
path, reporting whether a node was removed.  (The spec's pruning of now-empty
ancestors is unobservable through `GetEntry`/`GetValues...` and is omitted.) -/
def TreeCache.deletePath (t : TreeCache) : List GoStr → TreeCache × Bool
  | [] => (t, false)
  | [l] =>
    match alookup t.childrenOf l with
    | some _ => (.node t.entriesOf (aerase t.childrenOf l), true)
    | none => (t, false)
  | l :: rest =>
    match alookup t.childrenOf l with
    | some child =>
      let cres := child.deletePath rest
      (.node t.entriesOf (ainsert t.childrenOf l cres.1), cres.2)
    | none => (t, false)

/-- The mutable record state of `KubeDNS`: the tree cache, the PTR reverse
map and the cluster-IP → service map. -/
structure KubeDNSState where
  cache : TreeCache
  reverseRecordMap : List (GoStr × SkyService)
  clusterIPServiceMap : List (GoStr × KService)

/-- Errors surfaced by the record lookup path: the etcd KeyNotFound error or a
formatted message error. -/
inductive RecErr where
  | notFound
  | errMsg (m : GoStr)
deriving DecidableEq

/-- `KubeDNS.fqdn(service, subpaths...)`: reversed label path joined with dots
and dot-terminated (`dns.Fqdn`). -/
def fqdn (kd : KubeDNSStatic) (service : KService) (subpaths : List GoStr) : GoStr :=
  let domainLabels := kd.domainPath ++ [svcLabel, service.nsName, service.name] ++ subpaths
  let joined := goJoin (str ".") (reverseArray domainLabels)
  if goHasSuffix joined (str ".") then joined else joined ++ str "."

/-- `getServiceFQDN` (no trailing dot). -/
def getServiceFQDN (domain : GoStr) (service : KService) : GoStr :=
  goJoin (str ".") [service.name, service.nsName, svcLabel, domain]

/-- `KubeDNS.generateSRVRecordValue`. -/
def generateSRVRecordValue (kd : KubeDNSStatic) (svc : KService) (portNumber : Int)
    (labels : List GoStr) : SkyService :=
  let host := goJoin (str ".") [svc.name, svc.nsName, svcLabel, kd.domain]
  let host := labels.foldl (fun h cNameLabel => cNameLabel ++ str "." ++ h) host
  (getSkyMsg host portNumber).1

/-- `KubeDNS.isPodRecord`. -/
def isPodRecord (kd : KubeDNSStatic) (path : List GoStr) : Bool :=
  if path.length ≠ kd.domainPath.length + 3 then false
  else if path.getD kd.domainPath.length [] ≠ podLabel then false
  else if path.any (fun segment => decide (segment = str "*")) then false
  else true

/-- `KubeDNS.getPodIP`: dashes to dots, then `net.ParseIP`; on success the
replaced string itself is the host. -/
def getPodIP (path : List GoStr) : Except RecErr GoStr :=
  let ipStr := path.getD (path.length - 1) []
  let ip := ipStr.map (fun c => if c = '-' then '.' else c)
  if (goParseIP ip).isSome then .ok ip
  else .error (.errMsg (str "Invalid IP Address " ++ ip))

/-- `KubeDNS.getRecordsForPath`. -/
def getRecordsForPath (kd : KubeDNSStatic) (st : KubeDNSState) (path : List GoStr)
    (exact : Bool) : Except RecErr (List SkyService) :=
  if isPodRecord kd path then
    match getPodIP path with
    | .ok ip => .ok [(getSkyMsg ip 0).1]
    | .error e => .error e
  else if exact then
    let key := path.getD (path.length - 1) []
    if key = [] then .ok []
    else
      match st.cache.getEntry key (path.take (path.length - 1)) with
      | some record => .ok [record]
      | none => .error .notFound
  else
    .ok (st.cache.getValuesForPathWithWildcards path)

/-- `KubeDNS.isHeadlessServiceRecord`: no `clusterIPServiceMap` entry for the
record's host. -/
def isHeadlessServiceRecord (st : KubeDNSState) (msg : SkyService) : Bool :=
  !(amem st.clusterIPServiceMap msg.host)

/-- `KubeDNS.serviceWithClusterIPHasEndpoints`. -/
def serviceWithClusterIPHasEndpoints (st : KubeDNSState)
    (endpointsStore : List (ObjKey × KEndpoints)) (msg : SkyService) :
    Except GoStr Bool :=
  match alookup st.clusterIPServiceMap msg.host with
  | none => .error (str "method not expected to be called for headless service")
  | some svc =>
    match alookup endpointsStore (svcKey svc) with
    | none => .ok false
    | some e => .ok (decide (e.subsets.length > 0))

/-- A `skymsg.Service{Host: name}` struct literal: every other field is the
Go zero value. -/
def cnameOnly (host : GoStr) : SkyService :=
  { host := host, port := 0, priority := 0, weight := 0, text := [], mail := false,
    ttl := 0, targetStrip := 0, group := [], key := [] }

/-- `KubeDNS.federationRecords`.  The zone/region discovery
(`getClusterZoneAndRegion`, a nodes-store or API lookup) enters as the `zr`
parameter carrying its result or error. -/
def federationRecords (kd : KubeDNSStatic) (cfg : Config)
    (zr : Except GoStr (GoStr × GoStr)) (queryPath : List GoStr) :
    Except RecErr (List SkyService) :=
  let path := reverseArray queryPath
  if isFederationQuery kd cfg path = false then .error .notFound
  else
    let path1 := path.take (path.length - kd.domainPath.length)
    match zr with
    | .error e => .error (.errMsg (str "failed to obtain the cluster zone and region: " ++ e))
    | .ok zoneRegion =>
      let path2 := path1 ++ [zoneRegion.1, zoneRegion.2]
      let domain := (alookup cfg.federations (path2.getD 2 [])).getD []
      if isDNS1123Subdomain domain = false then
        .error (.errMsg (domain ++ str " is not a valid domain name for federation "
          ++ path2.getD 2 []))
      else
        let name := goJoin (str ".") (path2 ++ [domain])
        let name := if goHasSuffix name (str ".") = false then name ++ str "." else name
        .ok [cnameOnly name]

/-- `KubeDNS.recordsForFederation`. -/
def recordsForFederation (kd : KubeDNSStatic) (cfg : Config) (st : KubeDNSState)
    (endpointsStore : List (ObjKey × KEndpoints)) (zr : Except GoStr (GoStr × GoStr))
    (records : List SkyService) (path : List GoStr) (exact : Bool)
    (federationSegments : List GoStr) : Except RecErr (List SkyService) :=
  let validRecord := records.any fun val =>
    if isHeadlessServiceRecord st val then true
    else
      match serviceWithClusterIPHasEndpoints st endpointsStore val with
      | .ok ok => ok
      | .error _ => false
  if validRecord then
    let name := goJoin (str ".") (reverseArray path)
    let name := if goHasSuffix name (str ".") then name else name ++ str "."
    .ok [cnameOnly name]
  else if exact = false then
    federationRecords kd cfg zr (reverseArray federationSegments)
  else .error .notFound

/-- The two informer stores read by the handlers. -/
structure Stores where
  servicesStore : List (ObjKey × KService)
  endpointsStore : List (ObjKey × KEndpoints)

/-- The record subtree built by the first loop of `newPortalService`: per
cluster IP an A record keyed by its hash label, plus, per port with non-empty
name and protocol, an SRV record at `["_"+lower(protocol), "_"+name]` under
the same hash label. -/
def portalSubCache (kd : KubeDNSStatic) (service : KService) : TreeCache :=
  (getClusterIPs service).foldl
    (fun subCache ip =>
      service.ports.foldl
        (fun subCache port =>
          if port.name = [] ∨ port.protocol = [] then subCache
          else subCache.setEntry (getSkyMsg ip 0).2
            (generateSRVRecordValue kd service port.port [])
            [['_'] ++ port.protocol.map Char.toLower, ['_'] ++ port.name])
        (subCache.setEntry (getSkyMsg ip 0).2 (getSkyMsg ip 0).1 []))
    newTreeCache

/-- `KubeDNS.newPortalService`: install the subtree and refresh the reverse
and cluster-IP maps for every cluster IP. -/
def newPortalService (kd : KubeDNSStatic) (st : KubeDNSState) (service : KService) :
    KubeDNSState :=
  let subCache := portalSubCache kd service
  let clusterIPs := getClusterIPs service
  let subCachePath := kd.domainPath ++ [svcLabel, service.nsName]
  let host := getServiceFQDN kd.domain service
  let reverseRecord := (getSkyMsg host 0).1
  { cache := st.cache.setSubCache service.name subCache subCachePath,
    reverseRecordMap := clusterIPs.foldl (fun m ip => ainsert m ip reverseRecord)
      st.reverseRecordMap,
    clusterIPServiceMap := clusterIPs.foldl (fun m ip => ainsert m ip service)
      st.clusterIPServiceMap }

/-- The leaf key of an endpoint address: its hostname when present, the hash
label of its A record otherwise. -/
def headlessEndpointName (address : EndpointAddress) : GoStr :=
  if (getHostname address).2 then (getHostname address).1 else (getSkyMsg address.ip 0).2

/-- The A and SRV cache writes for one endpoint address (the first half of
the loop body of `generateRecordsForHeadlessService`): an A record under the
endpoint name, plus an SRV record per endpoint port with non-empty name and
protocol. -/
def headlessAddressCache (kd : KubeDNSStatic) (svc : KService) (subset : EndpointSubset)
    (address : EndpointAddress) (subCache : TreeCache) : TreeCache :=
  subset.ports.foldl
    (fun subCache endpointPort =>
      if endpointPort.name ≠ [] ∧ endpointPort.protocol ≠ [] then
        subCache.setEntry (headlessEndpointName address)
          (generateSRVRecordValue kd svc endpointPort.port [headlessEndpointName address])
          [['_'] ++ endpointPort.protocol.map Char.toLower, ['_'] ++ endpointPort.name]
      else subCache)
    (subCache.setEntry (headlessEndpointName address) (getSkyMsg address.ip 0).1 [])

/-- The staged PTR record for one endpoint address (the second half of the
loop body): only hostname-carrying addresses stage a reverse record. -/
def headlessAddressReverse (kd : KubeDNSStatic) (svc : KService)
    (address : EndpointAddress) (m : List (GoStr × SkyService)) :
    List (GoStr × SkyService) :=
  if (getHostname address).2 then
    ainsert m address.ip (getSkyMsg (fqdn kd svc [headlessEndpointName address]) 0).1
  else m

/-- The subtree and staged reverse records computed by
`generateRecordsForHeadlessService`: per endpoint address an A record keyed by
the hostname when present (hash label otherwise), SRV records per endpoint
port with non-empty name and protocol, and a staged reverse record only for
hostname-carrying addresses. -/
def headlessComputation (kd : KubeDNSStatic) (e : KEndpoints) (svc : KService) :
    TreeCache × List (GoStr × SkyService) :=
  e.subsets.foldl
    (fun acc subset =>
      subset.addresses.foldl
        (fun (acc : TreeCache × List (GoStr × SkyService)) address =>
          (headlessAddressCache kd svc subset address acc.1,
           headlessAddressReverse kd svc address acc.2))
        acc)
    (newTreeCache, [])

/-- `KubeDNS.generateRecordsForHeadlessService`. -/
def generateRecordsForHeadlessService (kd : KubeDNSStatic) (st : KubeDNSState)
    (e : KEndpoints) (svc : KService) : KubeDNSState :=
  let comp := headlessComputation kd e svc
  let subCachePath := kd.domainPath ++ [svcLabel, svc.nsName]
  { cache := st.cache.setSubCache svc.name comp.1 subCachePath,
    reverseRecordMap := comp.2.foldl (fun m p => ainsert m p.1 p.2) st.reverseRecordMap,
    clusterIPServiceMap := st.clusterIPServiceMap }

/-- `KubeDNS.newExternalNameService`: a single CNAME entry keyed by the
service name. -/
def newExternalNameService (kd : KubeDNSStatic) (st : KubeDNSState) (service : KService) :
    KubeDNSState :=
  let recordValue := (getSkyMsg service.externalName 0).1
  let cachePath := kd.domainPath ++ [svcLabel, service.nsName]
  { st with cache := st.cache.setEntry service.name recordValue cachePath }

/-- `KubeDNS.newHeadlessService`: look the endpoints up in the store; absent
endpoints leave the state unchanged. -/
def newHeadlessService (kd : KubeDNSStatic) (stores : Stores) (st : KubeDNSState)
    (service : KService) : KubeDNSState :=
  match alookup stores.endpointsStore (svcKey service) with
  | none => st
  | some e => generateRecordsForHeadlessService kd st e service

/-- `KubeDNS.newService`: dispatch on the service flavor. -/
def newService (kd : KubeDNSStatic) (stores : Stores) (st : KubeDNSState)
    (service : KService) : KubeDNSState :=
  if service.specType = externalNameType then newExternalNameService kd st service
  else if isServiceIPSet service = false then newHeadlessService kd stores st service
  else newPortalService kd st service

/-- `KubeDNS.removeService`: delete the subtree; for cluster-IP services also
drop the reverse and cluster-IP map entries. -/
def removeService (kd : KubeDNSStatic) (st : KubeDNSState) (s : KService) : KubeDNSState :=
  let subCachePath := kd.domainPath ++ [svcLabel, s.nsName, s.name]
  let cache := (st.cache.deletePath subCachePath).1
  if isServiceIPSet s then
    { cache := cache,
      reverseRecordMap := (getClusterIPs s).foldl aerase st.reverseRecordMap,
      clusterIPServiceMap := (getClusterIPs s).foldl aerase st.clusterIPServiceMap }
  else { st with cache := cache }

/-- `KubeDNS.updateService`: remove first only on an ExternalName flip. -/
def updateService (kd : KubeDNSStatic) (stores : Stores) (st : KubeDNSState)
    (oldS newS : KService) : KubeDNSState :=
  let st := if decide (newS.specType = externalNameType)
      ≠ decide (oldS.specType = externalNameType) then removeService kd st oldS else st
  newService kd stores st newS

/-- `KubeDNS.getServiceFromEndpoints` (store lookup by the endpoints' key). -/
def getServiceFromEndpoints (stores : Stores) (e : KEndpoints) : Option KService :=
  alookup stores.servicesStore (epKey e)

/-- `KubeDNS.addDNSUsingEndpoints`: only headless, non-ExternalName owning
services get records. -/
def addDNSUsingEndpoints (kd : KubeDNSStatic) (stores : Stores) (st : KubeDNSState)
    (e : KEndpoints) : KubeDNSState :=
  match getServiceFromEndpoints stores e with
  | none => st
  | some svc =>
    if isServiceIPSet svc = true ∨ svc.specType = externalNameType then st
    else generateRecordsForHeadlessService kd st e svc

/-- `KubeDNS.handleEndpointAdd`. -/
def handleEndpointAdd (kd : KubeDNSStatic) (stores : Stores) (st : KubeDNSState)
    (e : KEndpoints) : KubeDNSState :=
  addDNSUsingEndpoints kd stores st e

/-- The `oldAddressMap` after the first loop of `handleEndpointUpdate`: the
old endpoint IPs whose address carries a hostname. -/
def oldAddressMapInit (oldE : KEndpoints) : List (GoStr × Bool) :=
  oldE.subsets.foldl
    (fun m subset =>
      subset.addresses.foldl
        (fun m address => if (getHostname address).2 then ainsert m address.ip true else m)
        m)
    []

/-- The second loop of `handleEndpointUpdate`: drop from the map each IP that
is still carried with a hostname in the new endpoints. -/
def oldAddressMapPrune (m0 : List (GoStr × Bool)) (newE : KEndpoints) :
    List (GoStr × Bool) :=
  newE.subsets.foldl
    (fun m subset =>
      subset.addresses.foldl
        (fun m address =>
          if amem m address.ip then
            if (getHostname address).2 then aerase m address.ip else m
          else m)
        m)
    m0

/-- `KubeDNS.handleEndpointUpdate`: for a headless owning service, delete the
reverse entries of the remaining `oldAddressMap` keys, then re-add. -/
def handleEndpointUpdate (kd : KubeDNSStatic) (stores : Stores) (st : KubeDNSState)
    (oldE newE : KEndpoints) : KubeDNSState :=
  let st :=
    match getServiceFromEndpoints stores oldE with
    | none => st
    | some svc =>
      if isServiceIPSet svc = false then
        let oldAddressMap := oldAddressMapPrune (oldAddressMapInit oldE) newE
        { st with reverseRecordMap :=
            (oldAddressMap.map Prod.fst).foldl aerase st.reverseRecordMap }
      else st
  handleEndpointAdd kd stores st newE

/-- `KubeDNS.handleEndpointDelete`: for a headless owning service, drop the
reverse entries of every hostname-carrying address. -/
def handleEndpointDelete (kd : KubeDNSStatic) (stores : Stores) (st : KubeDNSState)
    (e : KEndpoints) : KubeDNSState :=
  match getServiceFromEndpoints stores e with
  | none => st
  | some svc =>
    if isServiceIPSet svc = false then
      let m' := e.subsets.foldl
        (fun m subset =>
          subset.addresses.foldl
            (fun m address => if (getHostname address).2 then aerase m address.ip else m)
            m)
        st.reverseRecordMap
      { st with reverseRecordMap := m' }
    else st

/-- A reconciler event as delivered by the informer. -/
inductive DNSEvent where
  | svcAdd (s : KService)
  | svcUpdate (oldS newS : KService)
  | svcDelete (s : KService)
  | epAdd (e : KEndpoints)
  | epUpdate (oldE newE : KEndpoints)
  | epDelete (e : KEndpoints)

/-- The world: the informer stores plus the engine state. -/
structure World where
  stores : Stores
  st : KubeDNSState

/-- The empty initial world. -/
def initialWorld : World := ⟨⟨[], []⟩, ⟨newTreeCache, [], []⟩⟩

/-- One informer delivery: the store is updated first, then the handler runs
against the updated stores (client-go semantics). -/
def step (kd : KubeDNSStatic) (w : World) : DNSEvent → World
  | .svcAdd s =>
    let stores := { w.stores with servicesStore := ainsert w.stores.servicesStore (svcKey s) s }
    ⟨stores, newService kd stores w.st s⟩
  | .svcUpdate oldS newS =>
    let stores := { w.stores with
      servicesStore := ainsert w.stores.servicesStore (svcKey newS) newS }
    ⟨stores, updateService kd stores w.st oldS newS⟩
  | .svcDelete s =>
    let stores := { w.stores with servicesStore := aerase w.stores.servicesStore (svcKey s) }
    ⟨stores, removeService kd w.st s⟩
  | .epAdd e =>
    let stores := { w.stores with endpointsStore := ainsert w.stores.endpointsStore (epKey e) e }
    ⟨stores, handleEndpointAdd kd stores w.st e⟩
  | .epUpdate oldE newE =>
    let stores := { w.stores with
      endpointsStore := ainsert w.stores.endpointsStore (epKey newE) newE }
    ⟨stores, handleEndpointUpdate kd stores w.st oldE newE⟩
  | .epDelete e =>
    let stores := { w.stores with endpointsStore := aerase w.stores.endpointsStore (epKey e) }
    ⟨stores, handleEndpointDelete kd stores w.st e⟩

/-- Fold a sequence of events. -/
def run (kd : KubeDNSStatic) (w : World) : List DNSEvent → World
  | [] => w
  | ev :: rest => run kd (step kd w ev) rest

/-- The nameserver list of the embedded SkyDNS `server.Config`. -/
structure SkyServerConfig where
  nameservers : List GoStr
deriving DecidableEq

/-- The configuration-holding part of `KubeDNS`. -/
structure KubeDNSConfigState where
  skyDNSConfig : Option SkyServerConfig
  config : Config
deriving DecidableEq

/-- `net.JoinHostPort`. -/
def goJoinHostPort (host port : GoStr) : GoStr :=
  if host.contains ':' then '[' :: host ++ str "]:" ++ port else host ++ str ":" ++ port

/-- The nameserver-validation loop of `updateConfig`: the validated
`net.JoinHostPort` forms, or the first validation error. -/
def validateLoop : List GoStr → Except GoStr (List GoStr)
  | [] => .ok []
  | nameServer :: rest =>
    match validateNameserverIpAndPort nameServer with
    | .error e => .error e
    | .ok ipPort =>
      match validateLoop rest with
      | .error e => .error e
      | .ok others => .ok (goJoinHostPort ipPort.1 ipPort.2 :: others)

/-- `KubeDNS.updateConfig`.  Reading `/etc/resolv.conf`
(`loadDefaultNameserver`) enters as the `resolvConf` parameter. -/
def updateConfig (resolvConf : List GoStr) (st : KubeDNSConfigState)
    (nextConfig : Config) : KubeDNSConfigState :=
  match st.skyDNSConfig with
  | none => { st with config := nextConfig }
  | some sky =>
    match validateLoop nextConfig.upstreamNameservers with
    | .error _ =>
      if sky.nameservers.length = 0 then
        { st with skyDNSConfig := some { nameservers := resolvConf } }
      else st
    | .ok nameServers =>
      let sky' := if nameServers.length = 0 then ({ nameservers := resolvConf } : SkyServerConfig)
        else ({ nameservers := nameServers } : SkyServerConfig)
      { skyDNSConfig := some sky', config := nextConfig }

/-- A pending `SetEntry` write: leaf key, payload, node path.  Used to reason
about the record subtrees built by the synthesizer loops. -/
abbrev EntryWrite := GoStr × SkyService × List GoStr

/-- Apply a sequence of `SetEntry` writes. -/
def applyWrites (t : TreeCache) (ws : List EntryWrite) : TreeCache :=
  ws.foldl (fun t w => t.setEntry w.1 w.2.1 w.2.2) t

/-- The last write in `ws` targeting leaf key `k` at node path `p`. -/
def lastWrite (k : GoStr) (p : List GoStr) (ws : List EntryWrite) : Option SkyService :=
  ws.foldl (fun acc w => if w.1 = k ∧ w.2.2 = p then some w.2.1 else acc) none

/-- The `SetEntry` writes performed by the loops of `newPortalService`, in
order: per cluster IP the A record write, then one SRV write per port with
non-empty name and protocol. -/
def portalWrites (kd : KubeDNSStatic) (service : KService) : List EntryWrite :=
  (getClusterIPs service).flatMap fun ip =>
    ((getSkyMsg ip 0).2, (getSkyMsg ip 0).1, ([] : List GoStr)) ::
      service.ports.filterMap fun port =>
        if port.name = [] ∨ port.protocol = [] then none
        else some ((getSkyMsg ip 0).2, generateSRVRecordValue kd service port.port [],
          [['_'] ++ port.protocol.map Char.toLower, ['_'] ++ port.name])

/-- Specification helper: the endpoints object carries, in some subset, an
address with this IP and a hostname. -/
def hostnamedIn (e : KEndpoints) (ip : GoStr) : Bool :=
  e.subsets.any fun subset => subset.addresses.any fun address =>
    (getHostname address).2 && decide (address.ip = ip)

/-- Specification helper: every endpoint address IP carried by an endpoints
object, across all subsets. -/
def epIPs (e : KEndpoints) : List GoStr :=
  (e.subsets.map (fun subset => subset.addresses.map (fun a => a.ip))).flatten

/-- Specification helper: the IPs a service owns in the reverse record map
(its cluster IPs when it is a cluster-IP service, none when headless). -/
def svcIPs (s : KService) : List GoStr :=
  if isServiceIPSet s then getClusterIPs s else []

/-- Cluster well-formedness of a world: store entries keyed consistently,
ExternalName services carry no cluster IP, the IP sets owned by distinct
objects are pairwise disjoint (cluster IPs of distinct services, cluster IPs
versus endpoint addresses, endpoint addresses of distinct endpoints objects),
and within one endpoints object an IP appears either always with or always
without a hostname. -/
def Wf (w : World) : Prop :=
  (∀ p ∈ w.stores.servicesStore, svcKey p.2 = p.1) ∧
  (∀ p ∈ w.stores.endpointsStore, epKey p.2 = p.1) ∧
  (∀ p ∈ w.stores.servicesStore, p.2.specType = externalNameType →
    isServiceIPSet p.2 = false) ∧
  (∀ p1 ∈ w.stores.servicesStore, ∀ p2 ∈ w.stores.servicesStore,
    p1.1 ≠ p2.1 → ∀ ip ∈ svcIPs p1.2, ip ∉ svcIPs p2.2) ∧
  (∀ p1 ∈ w.stores.servicesStore, ∀ p2 ∈ w.stores.endpointsStore,
    ∀ ip ∈ svcIPs p1.2, ip ∉ epIPs p2.2) ∧
  (∀ p1 ∈ w.stores.endpointsStore, ∀ p2 ∈ w.stores.endpointsStore,
    p1.1 ≠ p2.1 → ∀ ip ∈ epIPs p1.2, ip ∉ epIPs p2.2) ∧
  (∀ p ∈ w.stores.endpointsStore, ∀ s1 ∈ p.2.subsets, ∀ a1 ∈ s1.addresses,
    ∀ s2 ∈ p.2.subsets, ∀ a2 ∈ s2.addresses,
    a1.ip = a2.ip → (getHostname a1).2 = (getHostname a2).2)

instance instDecWf (w : World) : Decidable (Wf w) := by
  unfold Wf
  infer_instance

/-- Store-consistency of one informer event against the current stores: adds
target an absent key, updates and deletes name the stored object, service
updates preserve the service flavor and cluster IPs, and a headless service
is deleted only after its endpoints object is gone. -/
def EventOk (w : World) : DNSEvent → Prop
  | .svcAdd s => alookup w.stores.servicesStore (svcKey s) = none
  | .svcUpdate oldS newS =>
    svcKey oldS = svcKey newS ∧
    alookup w.stores.servicesStore (svcKey newS) = some oldS ∧
    oldS.specType = newS.specType ∧
    isServiceIPSet oldS = isServiceIPSet newS ∧
    getClusterIPs oldS = getClusterIPs newS
  | .svcDelete s =>
    alookup w.stores.servicesStore (svcKey s) = some s ∧
    (isServiceIPSet s = false → alookup w.stores.endpointsStore (svcKey s) = none)
  | .epAdd e => alookup w.stores.endpointsStore (epKey e) = none
  | .epUpdate oldE newE =>
    epKey oldE = epKey newE ∧
    alookup w.stores.endpointsStore (epKey newE) = some oldE
  | .epDelete e => alookup w.stores.endpointsStore (epKey e) = some e

instance instDecEventOk (w : World) (ev : DNSEvent) : Decidable (EventOk w ev) := by
  cases ev <;> simp only [EventOk] <;> infer_instance

/-- A store-consistent trace whose every intermediate world is well-formed. -/
def ValidTrace (kd : KubeDNSStatic) (w : World) : List DNSEvent → Prop
  | [] => Wf w
  | ev :: rest => Wf w ∧ EventOk w ev ∧ ValidTrace kd (step kd w ev) rest

instance instDecValidTrace (kd : KubeDNSStatic) :
    (tr : List DNSEvent) → (w : World) → Decidable (ValidTrace kd w tr)
  | [], w => decidable_of_iff (Wf w) Iff.rfl
  | ev :: rest, w =>
    haveI := instDecValidTrace kd rest (step kd w ev)
    decidable_of_iff (Wf w ∧ EventOk w ev ∧ ValidTrace kd (step kd w ev) rest) Iff.rfl

/-- An IP is owed a reverse entry by a live cluster-IP service. -/
def attrSvc (sst : List (ObjKey × KService)) (ip : GoStr) : Prop :=
  ∃ k s, alookup sst k = some s ∧ isServiceIPSet s = true ∧ ip ∈ getClusterIPs s

/-- An IP is owed a reverse entry by a hostname-carrying address of a live
endpoints object whose owning service is live, headless and not
ExternalName. -/
def attrEp (est : List (ObjKey × KEndpoints)) (sst : List (ObjKey × KService))
    (ip : GoStr) : Prop :=
  ∃ k e s, alookup est k = some e ∧ alookup sst k = some s ∧
    s.specType ≠ externalNameType ∧ isServiceIPSet s = false ∧ hostnamedIn e ip = true

/-- The reverse-map bookkeeping invariant: an IP has a reverse record entry
exactly when some live object owes it one. -/
def Inv0 (w : World) : Prop :=
  ∀ ip : GoStr, amem w.st.reverseRecordMap ip = true ↔
    (attrSvc w.stores.servicesStore ip ∨
     attrEp w.stores.endpointsStore w.stores.servicesStore ip)

/-- The property claim C3 asserts of the reverse record map: an entry for
every cluster IP of every live cluster-IP service, an entry for every
hostname-carrying endpoint address of a live headless service, and no entry
for any hostname-less endpoint address of a live headless service. -/
def ReverseMapProperty (w : World) : Prop :=
  (∀ k s, alookup w.stores.servicesStore k = some s → isServiceIPSet s = true →
    ∀ ip ∈ getClusterIPs s, amem w.st.reverseRecordMap ip = true) ∧
  (∀ k e s, alookup w.stores.endpointsStore k = some e →
    alookup w.stores.servicesStore k = some s →
    s.specType ≠ externalNameType → isServiceIPSet s = false →
    ∀ ss ∈ e.subsets, ∀ a ∈ ss.addresses,
      ((getHostname a).2 = true → amem w.st.reverseRecordMap a.ip = true) ∧
      ((getHostname a).2 = false → amem w.st.reverseRecordMap a.ip = false))

/-- Sample authoritative domain for concrete evaluations. -/
def kdCluster : KubeDNSStatic := ⟨str "cluster.local", [str "local", str "cluster"]⟩

/-- Sample headless service. -/
def svcHeadless : KService :=
  ⟨str "hs", str "ns", str "ClusterIP", clusterIPNone, [], [], []⟩

/-- Sample endpoints object of `svcHeadless` whose single address carries a
hostname. -/
def epWithHostname : KEndpoints :=
  ⟨str "hs", str "ns", [⟨[⟨str "10.1.1.1", str "pod-a"⟩], [⟨str "dns", str "UDP", 53⟩]⟩]⟩

/-- Sample endpoints object of `svcHeadless` whose single address lost its
hostname. -/
def epNoHostname : KEndpoints :=
  ⟨str "hs", str "ns", [⟨[⟨str "10.1.1.1", str ""⟩], [⟨str "dns", str "UDP", 53⟩]⟩]⟩

/-- The five-event delivery schedule refuting claim C3 as stated: the
headless service is deleted and re-created around an endpoints update that
drops the hostname, leaving a stale reverse entry. -/
def staleReverseTrace : List DNSEvent :=
  [.svcAdd svcHeadless, .epAdd epWithHostname, .svcDelete svcHeadless,
   .epUpdate epWithHostname epNoHostname, .svcAdd svcHeadless]

example : isDNS1123Label (str "my-fed") = true := by decide

example : isDNS1123Label (str "-bad") = false := by decide

example : isDNS1035Label (str "0abc") = false := by decide

example : isDNS1123Label (str "0abc") = true := by decide

example : isDNS1123Subdomain (str "example.com") = true := by decide

example : isDNS1123Subdomain (str "example.com.") = false := by decide

example : isDNS1123Subdomain (str "") = false := by decide

example : hashServiceRecord (newServiceRecord (str "10.0.0.5") 0) ≠ [] := by decide

theorem goSplitChar_ne_nil (sep : Char) (s : GoStr) : goSplitChar sep s ≠ [] := by
  cases s with
  | nil => simp [goSplitChar]
  | cons c rest =>
    simp only [goSplitChar]
    cases h : goSplitChar sep rest with
    | nil => simp
    | cons p ps => by_cases hc : c = sep <;> simp [hc]

theorem goSplitChar_sepFree (sep : Char) (s : GoStr) (h : sep ∉ s) :
    goSplitChar sep s = [s] := by
  induction s with
  | nil => rfl
  | cons c rest ih =>
    have hc : c ≠ sep := fun hcs => h (hcs ▸ List.mem_cons_self c rest)
    have hrest : sep ∉ rest := fun hm => h (List.mem_cons_of_mem c hm)
    simp only [goSplitChar, ih hrest]
    simp [hc]

theorem goSplitChar_append_sep (sep : Char) (x t : GoStr) (h : sep ∉ x) :
    goSplitChar sep (x ++ sep :: t) = x :: goSplitChar sep t := by
  induction x with
  | nil =>
    simp only [List.nil_append, goSplitChar]
    cases ht : goSplitChar sep t with
    | nil => exact absurd ht (goSplitChar_ne_nil sep t)
    | cons p ps => simp
  | cons c x' ih =>
    have hc : c ≠ sep := fun hcs => h (hcs ▸ List.mem_cons_self c x')
    have hx' : sep ∉ x' := fun hm => h (List.mem_cons_of_mem c hm)
    simp only [List.cons_append, goSplitChar, List.append_eq]
    rw [ih hx']
    simp [hc]

theorem goSplitChar_goJoin (sep : Char) (parts : List GoStr) (hne : parts ≠ [])
    (h : ∀ p ∈ parts, sep ∉ p) :
    goSplitChar sep (goJoin [sep] parts) = parts := by
  induction parts with
  | nil => exact absurd rfl hne
  | cons x rest ih =>
    cases rest with
    | nil => exact goSplitChar_sepFree sep x (h x (List.mem_cons_self x []))
    | cons y rest' =>
      have hx : sep ∉ x := h x (List.mem_cons_self x _)
      have hrec : goSplitChar sep (goJoin [sep] (y :: rest')) = y :: rest' :=
        ih (by simp) (fun p hp => h p (List.mem_cons_of_mem x hp))
      simp only [goJoin]
      have hre : x ++ [sep] ++ goJoin [sep] (y :: rest') =
          x ++ sep :: goJoin [sep] (y :: rest') := by simp
      rw [hre, goSplitChar_append_sep sep x _ hx, hrec]

theorem goHasSuffix_append (x suf : GoStr) : goHasSuffix (x ++ suf) suf = true := by
  rw [goHasSuffix, List.isSuffixOf_iff_suffix]
  exact List.suffix_append x suf

theorem goTrimSuffix_append (x suf : GoStr) : goTrimSuffix (x ++ suf) suf = x := by
  rw [goTrimSuffix, if_pos (goHasSuffix_append x suf)]
  simp [List.take_left]

set_option maxRecDepth 4000 in
theorem natDigits_dotFree : ∀ n : Nat, n < 256 → '.' ∉ natDigits n := by decide

/-- C6: for every IPv4 address `a.b.c.d` (octets rendered in decimal),
`ExtractIP "d.c.b.a.in-addr.arpa."` returns `("a.b.c.d", true)`; and every
input that does not end with `.in-addr.arpa.` yields `ok = false`. -/
theorem extractIP_reverse_roundtrip (a b c d : Nat)
    (ha : a < 256) (hb : b < 256) (hc : c < 256) (hd : d < 256) :
    ExtractIP (dottedQuad d c b a ++ arpaSuffix) = (dottedQuad a b c d, true) ∧
    ∀ s : GoStr, goHasSuffix s arpaSuffix = false → ExtractIP s = ([], false) := by
  constructor
  · have hsuf := goHasSuffix_append (dottedQuad d c b a) arpaSuffix
    have hdq : ∀ w x y z : Nat, dottedQuad w x y z =
        goJoin ['.'] [natDigits w, natDigits x, natDigits y, natDigits z] := by
      intro w x y z; simp [dottedQuad, goJoin]
    have hmem : ∀ p ∈ [natDigits d, natDigits c, natDigits b, natDigits a], '.' ∉ p := by
      intro p hp
      simp only [List.mem_cons, List.not_mem_nil, or_false] at hp
      rcases hp with h | h | h | h <;> subst h
      · exact natDigits_dotFree d hd
      · exact natDigits_dotFree c hc
      · exact natDigits_dotFree b hb
      · exact natDigits_dotFree a ha
    simp only [ExtractIP, hsuf, Bool.true_eq_false, if_false]
    rw [goTrimSuffix_append, hdq d c b a,
      goSplitChar_goJoin '.' _ (by simp) hmem]
    have hdot : str "." = ['.'] := rfl
    simp [reverseArray, hdot, hdq a b c d]
  · intro s hs
    simp [ExtractIP, hs]

/-- Witness for C6 at the address 10.0.0.1. -/
theorem extractIP_reverse_roundtrip_witness :
    ExtractIP (dottedQuad 1 0 0 10 ++ arpaSuffix) = (dottedQuad 10 0 0 1, true) :=
  (extractIP_reverse_roundtrip 10 0 0 1 (by decide) (by decide) (by decide) (by decide)).1

example : goParseIP (str "10.0.0.5") = some (v4MappedPre ++ [10, 0, 0, 5]) := by decide

example : goParseIP (str "10.0.0.256") = none := by decide

example : goParseIP (str "10.0.00.5") = none := by decide

example : goParseIP (str "::1") = some (List.replicate 15 0 ++ [1]) := by decide

example : goParseIP (str "fe80::1%eth0") = none := by decide

example : ipString (List.replicate 15 0 ++ [1]) = str "::1" := by decide

example : (goParseIP (str "0:0:0:0:0:0:0:1")).map ipString = some (str "::1") := by decide

example : (goParseIP (str "1:0:0:2:0:0:0:3")).map ipString = some (str "1:0:0:2::3") := by decide

example : (goParseIP (str "::ffff:1.2.3.4")).map ipString = some (str "1.2.3.4") := by decide

example : goSplitHostPort (str "1.2.3.4:53") = some (str "1.2.3.4", str "53") := by decide

example : goSplitHostPort (str "[::1]:53") = some (str "::1", str "53") := by decide

example : goSplitHostPort (str "::1:53") = none := by decide

example : goSplitHostPort (str "banana") = none := by decide

example : validateNameserverIpAndPort (str "8.8.8.8") = .ok (str "8.8.8.8", str "53") := by decide

example : validateNameserverIpAndPort (str "1.2.3.4:55") = .ok (str "1.2.3.4", str "55") := by decide

example : validateNameserverIpAndPort (str "1.2.3.4:0") =
    .error (str "bad port number: " ++ str "0") := by decide

example : validateNameserverIpAndPort (str "nope:53") =
    .error (str "bad IP address: " ++ str "nope") := by decide

/-- C8 counterexample: the claim says the first branch returns `s` itself, but
the code returns `ip.String()`, the canonical form: for the valid IP literal
`0:0:0:0:0:0:0:1` the function returns `::1`, not the input string. -/
theorem validateNameserver_counterexample :
    validateNameserverIpAndPort (str "0:0:0:0:0:0:0:1") = .ok (str "::1", str "53") ∧
    str "::1" ≠ str "0:0:0:0:0:0:0:1" := by decide

/-- C8 (amended): when `s` parses as an IP the function returns the canonical
string form of that IP (equal to `s` only when `s` is already canonical) and
port `"53"`; otherwise it succeeds exactly when `s` splits into host and port
with the host parsing as an IP and the port an integer in [1, 65535],
returning that host and port verbatim; in every other case it errors. -/
theorem validateNameserver_spec (s : GoStr) :
    (∀ ip, goParseIP s = some ip →
      validateNameserverIpAndPort s = .ok (ipString ip, str "53")) ∧
    (goParseIP s = none → ∀ h p,
      (validateNameserverIpAndPort s = .ok (h, p) ↔
        goSplitHostPort s = some (h, p) ∧ (goParseIP h).isSome = true ∧
          ∃ n : Int, goAtoi p = some n ∧ 1 ≤ n ∧ n ≤ 65535)) := by
  constructor
  · intro ip hip
    simp [validateNameserverIpAndPort, hip]
  · intro hnone h p
    simp only [validateNameserverIpAndPort, hnone]
    cases hsp : goSplitHostPort s with
    | none => simp
    | some hp0 =>
      obtain ⟨h0, p0⟩ := hp0
      simp only
      by_cases hip : (goParseIP h0).isNone
      · rw [if_pos hip]
        constructor
        · intro hco; exact absurd hco (by simp)
        · rintro ⟨hpair, hips, -⟩
          injection hpair with hpair'
          obtain ⟨hh, -⟩ := Prod.mk.injEq .. ▸ hpair'
          rw [← hh] at hips
          rw [Option.isNone_iff_eq_none] at hip
          rw [hip] at hips
          simp at hips
      · rw [if_neg hip]
        cases hato : goAtoi p0 with
        | none =>
          constructor
          · intro hco; exact absurd hco (by simp)
          · rintro ⟨hpair, -, n, hn, -⟩
            injection hpair with hpair'
            obtain ⟨-, hp⟩ := Prod.mk.injEq .. ▸ hpair'
            rw [← hp, hato] at hn
            simp at hn
        | some n =>
          dsimp only
          by_cases hrange : n < 1 ∨ n > 65535
          · rw [if_pos hrange]
            constructor
            · intro hco; exact absurd hco (by simp)
            · rintro ⟨hpair, -, n', hn', h1, h2⟩
              injection hpair with hpair'
              obtain ⟨-, hp⟩ := Prod.mk.injEq .. ▸ hpair'
              rw [← hp, hato] at hn'
              injection hn' with hn''
              subst hn''
              rcases hrange with hr | hr
              · exact absurd h1 (by omega)
              · exact absurd h2 (by omega)
          · rw [if_neg hrange]
            constructor
            · intro hok
              injection hok with hok'
              obtain ⟨hh, hp⟩ := Prod.mk.injEq .. ▸ hok'
              subst hh; subst hp
              refine ⟨rfl, ?_, n, hato, ?_, ?_⟩
              · rw [Option.isNone_iff_eq_none] at hip
                cases hgi : goParseIP h0
                · exact absurd hgi hip
                · simp
              · omega
              · omega
            · rintro ⟨hpair, -, -⟩
              injection hpair with hpair'
              obtain ⟨hh, hp⟩ := Prod.mk.injEq .. ▸ hpair'
              rw [hh, hp]

/-- Witness for C8 at `1.2.3.4:55`. -/
theorem validateNameserver_spec_witness :
    validateNameserverIpAndPort (str "1.2.3.4:55") = .ok (str "1.2.3.4", str "55") :=
  ((validateNameserver_spec (str "1.2.3.4:55")).2 (by decide) (str "1.2.3.4")
    (str "55")).mpr ⟨by decide, by decide, 55, by decide, by decide, by decide⟩

theorem revIndex_iff (dp rest : List GoStr) (hlen : rest.length = dp.length) :
    (∀ i, i < dp.length → rest.getD (dp.length - 1 - i) [] = dp.getD i []) ↔
      rest = dp.reverse := by
  constructor
  · intro hh
    apply List.ext_getElem (by simp [hlen])
    intro j h1 h2
    have hj : j < dp.length := by omega
    have hi := hh (dp.length - 1 - j) (by omega)
    have hidx : dp.length - 1 - (dp.length - 1 - j) = j := by omega
    rw [hidx] at hi
    rw [List.getD_eq_getElem rest [] (by omega), List.getD_eq_getElem dp [] (by omega)] at hi
    rw [List.getElem_reverse]
    exact hi
  · intro hh i hi
    subst hh
    rw [List.getD_eq_getElem _ [] (by simp [hlen] at hi ⊢; omega),
      List.getD_eq_getElem _ [] hi, List.getElem_reverse]
    have hix : dp.length - 1 - (dp.length - 1 - i) = i := by omega
    simp [hix]

theorem enumSuffix_iff (kd : KubeDNSStatic) (pre rest : List GoStr) (hpre : pre.length = 4)
    (hlen : rest.length = kd.domainPath.length) :
    (kd.domainPath.enum.all fun p =>
        decide ((pre ++ rest).getD ((pre ++ rest).length - p.1 - 1) [] = p.2)) = true ↔
      rest = kd.domainPath.reverse := by
  rw [← revIndex_iff kd.domainPath rest hlen]
  rw [List.all_eq_true]
  constructor
  · intro hall i hi
    have hmem : (i, kd.domainPath.getD i []) ∈ kd.domainPath.enum := by
      rw [List.mk_mem_enum_iff_getElem?, List.getElem?_eq_getElem hi,
        List.getD_eq_getElem _ [] hi]
    have hd := of_decide_eq_true (hall _ hmem)
    dsimp only at hd
    rw [List.getD_append_right pre rest [] _
      (by simp only [List.length_append, hpre, hlen]; omega)] at hd
    have hix : (pre ++ rest).length - i - 1 - pre.length = kd.domainPath.length - 1 - i := by
      simp only [List.length_append, hpre, hlen]
      omega
    rw [hix] at hd
    exact hd
  · intro hall p hp
    obtain ⟨i, x⟩ := p
    rw [List.mk_mem_enum_iff_getElem?] at hp
    have hi : i < kd.domainPath.length := by
      by_contra hc
      rw [List.getElem?_eq_none (by omega)] at hp
      cases hp
    rw [List.getElem?_eq_getElem hi] at hp
    apply decide_eq_true
    dsimp only
    rw [List.getD_append_right pre rest [] _
      (by simp only [List.length_append, hpre, hlen]; omega)]
    have hix : (pre ++ rest).length - i - 1 - pre.length = kd.domainPath.length - 1 - i := by
      simp only [List.length_append, hpre, hlen]
      omega
    rw [hix, hall i hi, List.getD_eq_getElem _ [] hi]
    injection hp

theorem isFederationQuery_iff_core (kd : KubeDNSStatic) (cfg : Config) (path : List GoStr) :
    isFederationQuery kd cfg path = true ↔
      ∃ s ns fed, path = s :: ns :: fed :: svcLabel :: kd.domainPath.reverse ∧
        isDNS1035Label s = true ∧ isDNS1123Label ns = true ∧ isDNS1123Label fed = true ∧
        amem cfg.federations fed = true := by
  have bt : ∀ b : Bool, ¬(b = false) → b = true := by decide
  constructor
  · intro h
    have hlen : path.length = 4 + kd.domainPath.length := by
      by_contra hc
      rw [isFederationQuery, if_pos hc] at h
      exact Bool.false_ne_true h
    rcases path with _ | ⟨a, path⟩
    · simp at hlen
      omega
    rcases path with _ | ⟨b, path⟩
    · simp at hlen; omega
    rcases path with _ | ⟨c, path⟩
    · simp at hlen; omega
    rcases path with _ | ⟨d, rest⟩
    · simp at hlen; omega
    have hrl : rest.length = kd.domainPath.length := by
      simp at hlen; omega
    rw [isFederationQuery, if_neg (not_not_intro hlen)] at h
    have g0 : (a :: b :: c :: d :: rest).getD 0 [] = a := rfl
    have g1 : (a :: b :: c :: d :: rest).getD 1 [] = b := rfl
    have g2 : (a :: b :: c :: d :: rest).getD 2 [] = c := rfl
    have g3 : (a :: b :: c :: d :: rest).getD 3 [] = d := rfl
    rw [g0, g1, g2, g3] at h
    by_cases h35 : isDNS1035Label a = false
    · rw [if_pos h35] at h; exact absurd h Bool.false_ne_true
    rw [if_neg h35] at h
    replace h35 := bt _ h35
    by_cases hb : isDNS1123Label b = false
    · rw [if_pos hb] at h; exact absurd h Bool.false_ne_true
    rw [if_neg hb] at h
    replace hb := bt _ hb
    by_cases hc2 : isDNS1123Label c = false
    · rw [if_pos hc2] at h; exact absurd h Bool.false_ne_true
    rw [if_neg hc2] at h
    replace hc2 := bt _ hc2
    by_cases hsvc : d ≠ svcLabel
    · rw [if_pos hsvc] at h; exact absurd h Bool.false_ne_true
    rw [if_neg hsvc] at h
    rw [not_not] at hsvc
    by_cases hall : (kd.domainPath.enum.all fun p =>
        decide ((a :: b :: c :: d :: rest).getD ((a :: b :: c :: d :: rest).length - p.1 - 1) []
          = p.2)) = false
    · rw [if_pos hall] at h; exact absurd h Bool.false_ne_true
    rw [if_neg hall] at h
    replace hall := bt _ hall
    have hall2 : (kd.domainPath.enum.all fun p =>
        decide ((([a, b, c, d] : List GoStr) ++ rest).getD
          ((([a, b, c, d] : List GoStr) ++ rest).length - p.1 - 1) [] = p.2)) = true := hall
    have hrest := (enumSuffix_iff kd [a, b, c, d] rest rfl hrl).mp hall2
    exact ⟨a, b, c, by rw [hsvc, hrest], h35, hb, hc2, h⟩
  · rintro ⟨s, ns, fed, rfl, h35, hb, hc2, hfed⟩
    have hlen : (s :: ns :: fed :: svcLabel :: kd.domainPath.reverse).length
        = 4 + kd.domainPath.length := by simp; omega
    rw [isFederationQuery, if_neg (not_not_intro hlen)]
    have g0 : (s :: ns :: fed :: svcLabel :: kd.domainPath.reverse).getD 0 [] = s := rfl
    have g1 : (s :: ns :: fed :: svcLabel :: kd.domainPath.reverse).getD 1 [] = ns := rfl
    have g2 : (s :: ns :: fed :: svcLabel :: kd.domainPath.reverse).getD 2 [] = fed := rfl
    have g3 : (s :: ns :: fed :: svcLabel :: kd.domainPath.reverse).getD 3 [] = svcLabel := rfl
    rw [g0, g1, g2, g3]
    rw [if_neg (by rw [h35]; simp)]
    rw [if_neg (by rw [hb]; simp)]
    rw [if_neg (by rw [hc2]; simp)]
    rw [if_neg (not_not_intro rfl)]
    have hall2 := (enumSuffix_iff kd [s, ns, fed, svcLabel] kd.domainPath.reverse rfl
      (by simp)).mpr rfl
    have hall3 : (kd.domainPath.enum.all fun p =>
        decide ((s :: ns :: fed :: svcLabel :: kd.domainPath.reverse).getD
          ((s :: ns :: fed :: svcLabel :: kd.domainPath.reverse).length - p.1 - 1) []
            = p.2)) = true := hall2
    rw [if_neg (by rw [hall3]; simp)]
    exact hfed

/-- C1: `isFederationQuery(path)` is true iff the path is exactly a valid
RFC 1035 service label, two valid RFC 1123 labels (namespace and federation),
the literal `"svc"`, followed by the reversed authoritative `domainPath`, with
the federation name present in the configured `Federations` map; consequently
(provided the authoritative domain itself has no `*` label) a path containing
a `*` label is never classified as a federation query. -/
theorem federation_query_grammar (kd : KubeDNSStatic) (cfg : Config) (path : List GoStr) :
    (isFederationQuery kd cfg path = true ↔
      ∃ s ns fed, path = s :: ns :: fed :: svcLabel :: kd.domainPath.reverse ∧
        isDNS1035Label s = true ∧ isDNS1123Label ns = true ∧ isDNS1123Label fed = true ∧
        amem cfg.federations fed = true) ∧
    (str "*" ∉ kd.domainPath → str "*" ∈ path → isFederationQuery kd cfg path = false) := by
  refine ⟨isFederationQuery_iff_core kd cfg path, ?_⟩
  intro hstar hmem
  cases hq : isFederationQuery kd cfg path
  · rfl
  · exfalso
    obtain ⟨s, ns, fed, hshape, h35, hb, hc2, -⟩ :=
      (isFederationQuery_iff_core kd cfg path).mp hq
    subst hshape
    have hs35 : isDNS1035Label (str "*") = false := by decide
    have hs1123 : isDNS1123Label (str "*") = false := by decide
    have hsvc : str "*" ≠ svcLabel := by decide
    simp only [List.mem_cons] at hmem
    rcases hmem with h | h | h | h | h
    · rw [← h] at h35; exact Bool.false_ne_true (hs35.symm.trans h35)
    · rw [← h] at hb; exact Bool.false_ne_true (hs1123.symm.trans hb)
    · rw [← h] at hc2; exact Bool.false_ne_true (hs1123.symm.trans hc2)
    · exact hsvc h
    · rw [List.mem_reverse] at h; exact hstar h

/-- Witness for C1: the wildcard query `*.ns.myfed.svc.cluster.local` is not a
federation query, even with `myfed` configured. -/
theorem federation_query_grammar_witness :
    isFederationQuery ⟨str "cluster.local", [str "local", str "cluster"]⟩
      ⟨[(str "myfed", str "example.com")], []⟩
      [str "*", str "ns", str "myfed", svcLabel, str "cluster", str "local"] = false :=
  (federation_query_grammar ⟨str "cluster.local", [str "local", str "cluster"]⟩
    ⟨[(str "myfed", str "example.com")], []⟩
    [str "*", str "ns", str "myfed", svcLabel, str "cluster", str "local"]).2
    (by decide) (by decide)

example : isFederationQuery ⟨str "cluster.local", [str "local", str "cluster"]⟩
    ⟨[(str "myfed", str "example.com")], []⟩
    [str "mysvc", str "ns", str "myfed", str "svc", str "cluster", str "local"] = true := by
  decide

theorem validateLoop_error_of_bad (l : List GoStr)
    (hbad : ∃ ns ∈ l, ∃ e, validateNameserverIpAndPort ns = .error e) :
    ∃ e, validateLoop l = .error e := by
  induction l with
  | nil => obtain ⟨ns, hmem, -⟩ := hbad; cases hmem
  | cons x rest ih =>
    obtain ⟨ns, hmem, e, he⟩ := hbad
    rw [validateLoop]
    cases hvx : validateNameserverIpAndPort x with
    | error e' => exact ⟨e', rfl⟩
    | ok r =>
      rcases List.mem_cons.mp hmem with h | h
      · subst h; rw [hvx] at he; cases he
      · obtain ⟨e'', he''⟩ := ih ⟨ns, h, e, he⟩
        rw [he'']
        exact ⟨e'', rfl⟩

/-- C9: a configuration update containing an invalid upstream nameserver
(with a SkyDNS server config present) is rejected wholesale: the stored
config snapshot (including its Federations map) is unchanged, and the
resolv.conf nameservers are installed as a fallback only when no nameservers
were previously installed. -/
theorem updateConfig_rejects_invalid (resolvConf : List GoStr)
    (st : KubeDNSConfigState) (sky : SkyServerConfig) (nextConfig : Config)
    (hsky : st.skyDNSConfig = some sky)
    (hbad : ∃ ns ∈ nextConfig.upstreamNameservers, ∃ e,
      validateNameserverIpAndPort ns = .error e) :
    (updateConfig resolvConf st nextConfig).config = st.config ∧
    (updateConfig resolvConf st nextConfig).skyDNSConfig =
      some (if sky.nameservers.length = 0 then { nameservers := resolvConf } else sky) := by
  obtain ⟨e, he⟩ := validateLoop_error_of_bad nextConfig.upstreamNameservers hbad
  simp only [updateConfig, hsky, he]
  by_cases hz : sky.nameservers.length = 0
  · rw [if_pos hz, if_pos hz]
    exact ⟨rfl, rfl⟩
  · rw [if_neg hz, if_neg hz]
    exact ⟨rfl, hsky⟩

/-- Witness for C9: one invalid nameserver `bad`, previously installed
nameservers kept, config untouched. -/
theorem updateConfig_rejects_invalid_witness :
    (updateConfig [str "9.9.9.9:53"]
      ⟨some ⟨[str "8.8.8.8:53"]⟩, ⟨[(str "myfed", str "example.com")], []⟩⟩
      ⟨[], [str "bad"]⟩).config = ⟨[(str "myfed", str "example.com")], []⟩ ∧
    (updateConfig [str "9.9.9.9:53"]
      ⟨some ⟨[str "8.8.8.8:53"]⟩, ⟨[(str "myfed", str "example.com")], []⟩⟩
      ⟨[], [str "bad"]⟩).skyDNSConfig = some ⟨[str "8.8.8.8:53"]⟩ := by
  have h := updateConfig_rejects_invalid [str "9.9.9.9:53"]
    ⟨some ⟨[str "8.8.8.8:53"]⟩, ⟨[(str "myfed", str "example.com")], []⟩⟩
    ⟨[str "8.8.8.8:53"]⟩ ⟨[], [str "bad"]⟩ rfl
    ⟨str "bad", by decide, str "address error", by decide⟩
  exact ⟨h.1, h.2.trans (by decide)⟩

theorem federationRecords_ok_shape (kd : KubeDNSStatic) (cfg : Config)
    (zr : Except GoStr (GoStr × GoStr)) (queryPath : List GoStr)
    (rs : List SkyService) (h : federationRecords kd cfg zr queryPath = .ok rs) :
    ∃ name, rs = [cnameOnly name] := by
  simp only [federationRecords] at h
  split at h
  · cases h
  · split at h
    · cases h
    · split at h
      · cases h
      · injection h with h'
        exact ⟨_, h'.symm⟩

/-- C10: every CNAME payload returned on the federation path — the local
service CNAME and the federation redirect CNAME — has only the host set: its
port, priority, weight and ttl are 0, not the default 10/10/30. -/
theorem federation_cname_zero_fields (kd : KubeDNSStatic) (cfg : Config)
    (st : KubeDNSState) (endpointsStore : List (ObjKey × KEndpoints))
    (zr : Except GoStr (GoStr × GoStr)) (records : List SkyService)
    (path : List GoStr) (exact : Bool) (federationSegments : List GoStr)
    (rs : List SkyService)
    (h : recordsForFederation kd cfg st endpointsStore zr records path exact
      federationSegments = .ok rs) :
    ∀ r ∈ rs, r.port = 0 ∧ r.priority = 0 ∧ r.weight = 0 ∧ r.ttl = 0 := by
  intro r hr
  simp only [recordsForFederation] at h
  split at h
  · injection h with h'
    subst h'
    rcases List.mem_singleton.mp hr with rfl
    exact ⟨rfl, rfl, rfl, rfl⟩
  · split at h
    · obtain ⟨name, rfl⟩ := federationRecords_ok_shape kd cfg zr
        (reverseArray federationSegments) rs h
      rcases List.mem_singleton.mp hr with rfl
      exact ⟨rfl, rfl, rfl, rfl⟩
    · cases h

/-- Witness for C10: a headless local record makes the federation path return
the local CNAME, whose numeric fields are all zero. -/
theorem federation_cname_zero_fields_witness :
    (cnameOnly (str "mysvc.ns.svc.cluster.local.")).port = 0 ∧
    (cnameOnly (str "mysvc.ns.svc.cluster.local.")).priority = 0 ∧
    (cnameOnly (str "mysvc.ns.svc.cluster.local.")).weight = 0 ∧
    (cnameOnly (str "mysvc.ns.svc.cluster.local.")).ttl = 0 :=
  federation_cname_zero_fields ⟨str "cluster.local", [str "local", str "cluster"]⟩
    ⟨[(str "myfed", str "example.com")], []⟩ ⟨newTreeCache, [], []⟩ []
    (.ok (str "z1", str "r1")) [newServiceRecord (str "10.0.0.7") 0]
    [str "local", str "cluster", str "svc", str "ns", str "mysvc"] false
    [str "mysvc", str "ns", str "myfed", str "svc", str "cluster", str "local"]
    [cnameOnly (str "mysvc.ns.svc.cluster.local.")] (by decide)
    (cnameOnly (str "mysvc.ns.svc.cluster.local.")) (List.mem_singleton.mpr rfl)

/-- C7: on a pod-record path (length `len(domainPath)+3`, label `pod` right
after the domain labels, no `*` segment) the lookup is pure: for every cache
and reverse-map state and either query mode it returns, when the dashed last
label parses as an IP, exactly one payload with that dotted IP as host and
port 0 (with the default priority/weight/ttl), and an error with no records
otherwise. -/
theorem pod_record_purity (kd : KubeDNSStatic) (st : KubeDNSState) (path : List GoStr)
    (exact : Bool)
    (hlen : path.length = kd.domainPath.length + 3)
    (hpod : path.getD kd.domainPath.length [] = podLabel)
    (hstar : ∀ segment ∈ path, segment ≠ str "*") :
    getRecordsForPath kd st path exact =
      (let ip := (path.getD (path.length - 1) []).map (fun c => if c = '-' then '.' else c)
       if (goParseIP ip).isSome then
         .ok [{ host := ip, port := 0, priority := 10, weight := 10, text := [],
                mail := false, ttl := 30, targetStrip := 0, group := [], key := [] }]
       else .error (.errMsg (str "Invalid IP Address " ++ ip))) := by
  have hany : path.any (fun segment => decide (segment = str "*")) = false := by
    rw [List.any_eq_false]
    intro x hx
    simp [hstar x hx]
  have hp : isPodRecord kd path = true := by
    rw [isPodRecord, if_neg (not_not_intro hlen), if_neg (not_not_intro hpod),
      if_neg (by rw [hany]; exact Bool.false_ne_true)]
  rw [getRecordsForPath, if_pos hp, getPodIP]
  by_cases hip : (goParseIP ((path.getD (path.length - 1) []).map
      (fun c => if c = '-' then '.' else c))).isSome
  · simp only [hip, if_true, if_pos]
    rfl
  · simp only [Bool.not_eq_true] at hip
    simp only [hip, Bool.false_eq_true, if_false]

/-- Witness for C7: `10-0-0-1.default.pod.cluster.local` resolves to the A
payload `10.0.0.1` with port 0, on the empty cache. -/
theorem pod_record_purity_witness :
    getRecordsForPath ⟨str "cluster.local", [str "local", str "cluster"]⟩
      ⟨newTreeCache, [], []⟩
      [str "local", str "cluster", str "pod", str "default", str "10-0-0-1"] false =
      .ok [{ host := str "10.0.0.1", port := 0, priority := 10, weight := 10, text := [],
             mail := false, ttl := 30, targetStrip := 0, group := [], key := [] }] := by
  have h := pod_record_purity ⟨str "cluster.local", [str "local", str "cluster"]⟩
    ⟨newTreeCache, [], []⟩
    [str "local", str "cluster", str "pod", str "default", str "10-0-0-1"] false
    (by decide) (by decide) (by decide)
  rw [h]
  decide

theorem goJoin_cons_of_ne_nil (sep : GoStr) (x : GoStr) (rest : List GoStr)
    (h : rest ≠ []) : goJoin sep (x :: rest) = x ++ sep ++ goJoin sep rest := by
  cases rest with
  | nil => exact absurd rfl h
  | cons y ys => rfl

theorem goJoin_goSplitChar (sep : Char) (s : GoStr) :
    goJoin [sep] (goSplitChar sep s) = s := by
  induction s with
  | nil => rfl
  | cons c rest ih =>
    rw [goSplitChar]
    cases hsp : goSplitChar sep rest with
    | nil => exact absurd hsp (goSplitChar_ne_nil sep rest)
    | cons q qs =>
      rw [hsp] at ih
      dsimp only
      by_cases hc : c = sep
      · rw [if_pos hc]
        rw [goJoin_cons_of_ne_nil [sep] [] (q :: qs) (by simp), ih]
        subst hc
        rfl
      · rw [if_neg hc]
        cases qs with
        | nil =>
          rw [goJoin] at ih ⊢
          rw [ih]
        | cons y ys =>
          rw [goJoin] at ih ⊢
          simp only [List.cons_append, List.append_assoc] at ih ⊢
          rw [ih]

theorem getLast?_goJoin_concat (sep : GoStr) (parts : List GoStr) (lp : GoStr)
    (hlp : lp ≠ []) : (goJoin sep (parts ++ [lp])).getLast? = lp.getLast? := by
  induction parts with
  | nil => rfl
  | cons x parts ih =>
    have hne : goJoin sep (parts ++ [lp]) ≠ [] := by
      intro hnil
      rw [hnil] at ih
      have := (List.getLast?_isSome (l := lp)).mpr hlp
      rw [← ih] at this
      cases this
    rw [List.cons_append, goJoin_cons_of_ne_nil sep x _ (by simp)]
    rw [List.append_assoc, List.getLast?_append_of_ne_nil x (by
      intro hn
      exact hne (List.append_eq_nil.mp hn).2)]
    rw [List.getLast?_append_of_ne_nil sep hne]
    exact ih

theorem labelCore_getLast (first : Char → Bool) (lp : GoStr)
    (h : labelCore first lp = true) (hfirst : ∀ c, first c = true → isAlnumLower c = true) :
    ∃ x, lp.getLast? = some x ∧ isAlnumLower x = true := by
  cases lp with
  | nil => rw [labelCore] at h; cases h
  | cons hd t =>
    rw [labelCore] at h
    simp only [Bool.and_eq_true] at h
    obtain ⟨⟨hh, -⟩, hlast⟩ := h
    cases htl : t.getLast? with
    | none =>
      have htn : t = [] := by
        cases t with
        | nil => rfl
        | cons a b =>
          have hs := (List.getLast?_isSome (l := a :: b)).mpr (by simp)
          rw [htl] at hs
          cases hs
      subst htn
      exact ⟨hd, rfl, hfirst hd hh⟩
    | some x =>
      have htne : t ≠ [] := by
        intro hn; rw [hn] at htl; cases htl
      rw [htl] at hlast
      refine ⟨x, ?_, hlast⟩
      have : (hd :: t) = [hd] ++ t := rfl
      rw [this, List.getLast?_append_of_ne_nil [hd] htne]
      exact htl

theorem subdomain_getLast_alnum (d : GoStr) (h : isDNS1123Subdomain d = true) :
    ∃ x, d.getLast? = some x ∧ isAlnumLower x = true := by
  rw [isDNS1123Subdomain, Bool.and_eq_true, List.all_eq_true] at h
  obtain ⟨-, hall⟩ := h
  rcases List.eq_nil_or_concat (goSplitChar '.' d) with hnil | ⟨init, lp, hconc⟩
  · exact absurd hnil (goSplitChar_ne_nil '.' d)
  · rw [List.concat_eq_append] at hconc
    have hlp : labelCore isAlnumLower lp = true := by
      apply hall lp
      rw [hconc]
      exact List.mem_append_right init (List.mem_singleton_self lp)
    have hlpne : lp ≠ [] := by
      intro hn
      rw [hn, labelCore] at hlp
      cases hlp
    obtain ⟨x, hx, halx⟩ := labelCore_getLast isAlnumLower lp hlp (fun _ hc => hc)
    have hjd := goJoin_goSplitChar '.' d
    rw [hconc] at hjd
    rw [← hjd, getLast?_goJoin_concat ['.'] init lp hlpne]
    exact ⟨x, hx, halx⟩

theorem goJoin_concat_no_dot_suffix (parts : List GoStr) (d : GoStr)
    (h : isDNS1123Subdomain d = true) :
    goHasSuffix (goJoin (str ".") (parts ++ [d])) (str ".") = false := by
  obtain ⟨x, hx, halx⟩ := subdomain_getLast_alnum d h
  have hdne : d ≠ [] := by
    intro hnil
    rw [hnil] at hx
    cases hx
  cases hs : goHasSuffix (goJoin (str ".") (parts ++ [d])) (str ".") with
  | false => rfl
  | true =>
    exfalso
    rw [goHasSuffix, List.isSuffixOf_iff_suffix] at hs
    obtain ⟨t, ht⟩ := hs
    have h2 : (goJoin (str ".") (parts ++ [d])).getLast? = some '.' := by
      rw [← ht, List.getLast?_append_of_ne_nil t (by decide)]
      rfl
    rw [getLast?_goJoin_concat (str ".") parts d hdne, hx] at h2
    injection h2 with h3
    rw [h3] at halx
    exact absurd halx (by decide)

/-- C2: when the reversed query path classifies as a federation query
`[s, ns, fed, "svc", domainPath-reversed]` and the zone/region lookup
succeeds, `federationRecords` returns exactly one CNAME payload whose host is
`s.ns.fed.svc.<zone>.<region>.<federation parent domain>.` with a trailing
dot; when the configured parent domain fails the RFC 1123 subdomain check it
returns an error instead. -/
theorem federationRecords_redirect (kd : KubeDNSStatic) (cfg : Config)
    (zone region : GoStr) (queryPath : List GoStr) (s ns fed : GoStr)
    (hshape : reverseArray queryPath = s :: ns :: fed :: svcLabel :: kd.domainPath.reverse)
    (hfq : isFederationQuery kd cfg (reverseArray queryPath) = true) :
    (isDNS1123Subdomain ((alookup cfg.federations fed).getD []) = true →
      federationRecords kd cfg (.ok (zone, region)) queryPath =
        .ok [cnameOnly (goJoin (str ".")
          [s, ns, fed, svcLabel, zone, region, (alookup cfg.federations fed).getD []]
          ++ str ".")]) ∧
    (isDNS1123Subdomain ((alookup cfg.federations fed).getD []) = false →
      ∃ m, federationRecords kd cfg (.ok (zone, region)) queryPath =
        .error (.errMsg m)) := by
  have htake : (reverseArray queryPath).take
      ((reverseArray queryPath).length - kd.domainPath.length) =
      [s, ns, fed, svcLabel] := by
    rw [hshape]
    have hsh : s :: ns :: fed :: svcLabel :: kd.domainPath.reverse =
        [s, ns, fed, svcLabel] ++ kd.domainPath.reverse := rfl
    have hl : (s :: ns :: fed :: svcLabel :: kd.domainPath.reverse).length -
        kd.domainPath.length = ([s, ns, fed, svcLabel] : List GoStr).length := by
      simp
      omega
    rw [hl, hsh, List.take_left]
  have hfq' : isFederationQuery kd cfg (reverseArray queryPath) = false → False := by
    rw [hfq]; intro hc; cases hc
  have hged : (([s, ns, fed, svcLabel] : List GoStr) ++ [zone, region]).getD 2 [] = fed := rfl
  constructor
  · intro hdom
    rw [federationRecords]
    rw [if_neg hfq', htake]
    simp only [hged]
    rw [if_neg (by rw [hdom]; intro hc; cases hc)]
    have happ : (([s, ns, fed, svcLabel] : List GoStr) ++ [zone, region]) ++
        [(alookup cfg.federations fed).getD []] =
        [s, ns, fed, svcLabel, zone, region] ++ [(alookup cfg.federations fed).getD []] := rfl
    rw [happ]
    rw [if_pos (by
      rw [goJoin_concat_no_dot_suffix [s, ns, fed, svcLabel, zone, region] _ hdom])]
    rfl
  · intro hdom
    rw [federationRecords]
    rw [if_neg hfq', htake]
    simp only [hged]
    rw [if_pos hdom]
    exact ⟨_, rfl⟩

/-- Witness for C2: `mysvc.ns.myfed.svc.cluster.local` with federation
`myfed → example.com`, zone `z1`, region `r1`. -/
theorem federationRecords_redirect_witness :
    federationRecords ⟨str "cluster.local", [str "local", str "cluster"]⟩
      ⟨[(str "myfed", str "example.com")], []⟩ (.ok (str "z1", str "r1"))
      [str "local", str "cluster", str "svc", str "myfed", str "ns", str "mysvc"] =
      .ok [cnameOnly (str "mysvc.ns.myfed.svc.z1.r1.example.com.")] := by
  have h := (federationRecords_redirect ⟨str "cluster.local", [str "local", str "cluster"]⟩
    ⟨[(str "myfed", str "example.com")], []⟩ (str "z1") (str "r1")
    [str "local", str "cluster", str "svc", str "myfed", str "ns", str "mysvc"]
    (str "mysvc") (str "ns") (str "myfed") (by decide) (by decide)).1 (by decide)
  rw [h]
  decide

theorem alookup_aerase_self {α β : Type} [DecidableEq α] (m : List (α × β)) (k : α) :
    alookup (aerase m k) k = none := by
  induction m with
  | nil => rfl
  | cons p rest ih =>
    obtain ⟨pk, pv⟩ := p
    by_cases hpk : pk = k
    · simpa [aerase, List.filter, hpk] using ih
    · have hstep : aerase ((pk, pv) :: rest) k = (pk, pv) :: aerase rest k := by
        simp [aerase, List.filter, hpk]
      rw [hstep, alookup, if_neg hpk]
      exact ih

theorem alookup_aerase_ne {α β : Type} [DecidableEq α] (m : List (α × β)) (k a : α)
    (h : a ≠ k) : alookup (aerase m k) a = alookup m a := by
  induction m with
  | nil => rfl
  | cons p rest ih =>
    obtain ⟨pk, pv⟩ := p
    by_cases hpk : pk = k
    · have hstep : aerase ((pk, pv) :: rest) k = aerase rest k := by
        simp [aerase, List.filter, hpk]
      rw [hstep, ih, alookup, if_neg (by rw [hpk]; exact fun hh => h hh.symm)]
    · have hstep : aerase ((pk, pv) :: rest) k = (pk, pv) :: aerase rest k := by
        simp [aerase, List.filter, hpk]
      rw [hstep, alookup, alookup]
      by_cases hpa : pk = a
      · rw [if_pos hpa, if_pos hpa]
      · rw [if_neg hpa, if_neg hpa]
        exact ih

theorem alookup_ainsert_self {α β : Type} [DecidableEq α] (m : List (α × β)) (k : α)
    (v : β) : alookup (ainsert m k v) k = some v := by
  rw [ainsert, alookup, if_pos rfl]

theorem alookup_ainsert_ne {α β : Type} [DecidableEq α] (m : List (α × β)) (k a : α)
    (v : β) (h : a ≠ k) : alookup (ainsert m k v) a = alookup m a := by
  rw [ainsert, alookup, if_neg (fun hh => h hh.symm)]
  exact alookup_aerase_ne m k a h

theorem amem_ainsert {α β : Type} [DecidableEq α] (m : List (α × β)) (k a : α) (v : β) :
    amem (ainsert m k v) a = (a = k || amem m a) := by
  by_cases h : a = k
  · subst h
    rw [amem, alookup_ainsert_self]
    simp
  · rw [amem, alookup_ainsert_ne m k a v h, amem]
    simp [h]

theorem amem_aerase {α β : Type} [DecidableEq α] (m : List (α × β)) (k a : α) :
    amem (aerase m k) a = (decide (a ≠ k) && amem m a) := by
  by_cases h : a = k
  · subst h
    rw [amem, alookup_aerase_self]
    simp
  · rw [amem, alookup_aerase_ne m k a h, amem]
    simp [h]

theorem getEntry_setEntry_same (t : TreeCache) (k : GoStr) (v : SkyService)
    (p : List GoStr) : (t.setEntry k v p).getEntry k p = some v := by
  induction p generalizing t with
  | nil => exact alookup_ainsert_self t.entriesOf k v
  | cons l rest ih =>
    rw [TreeCache.setEntry, TreeCache.getEntry]
    rw [TreeCache.childrenOf]
    rw [alookup_ainsert_self]
    exact ih _

theorem getEntry_setEntry_other (t : TreeCache) (k : GoStr) (v : SkyService)
    (p : List GoStr) (k' : GoStr) (p' : List GoStr) (h : ¬(k' = k ∧ p' = p)) :
    (t.setEntry k v p).getEntry k' p' = t.getEntry k' p' := by
  induction p generalizing t p' with
  | nil =>
    cases p' with
    | nil =>
      have hk : k' ≠ k := fun hh => h ⟨hh, rfl⟩
      rw [TreeCache.setEntry, TreeCache.getEntry, TreeCache.getEntry, TreeCache.entriesOf]
      exact alookup_ainsert_ne _ _ _ _ hk
    | cons l' r' =>
      rw [TreeCache.setEntry, TreeCache.getEntry, TreeCache.getEntry, TreeCache.childrenOf]
  | cons l rest ih =>
    cases p' with
    | nil =>
      rw [TreeCache.setEntry, TreeCache.getEntry, TreeCache.getEntry, TreeCache.entriesOf]
    | cons l' r' =>
      rw [TreeCache.setEntry, TreeCache.getEntry, TreeCache.getEntry, TreeCache.childrenOf]
      by_cases hl : l' = l
      · subst hl
        rw [alookup_ainsert_self]
        dsimp only
        have hsub : ¬(k' = k ∧ r' = rest) := by
          rintro ⟨hk, hr⟩
          exact h ⟨hk, by rw [hr]⟩
        rw [ih _ _ hsub]
        cases hc : alookup t.childrenOf l' with
        | some child => rfl
        | none =>
          cases r' with
          | nil => rfl
          | cons a b => rfl
      · rw [alookup_ainsert_ne _ _ _ _ hl]

theorem getEntry_setSubCache (t : TreeCache) (label : GoStr) (sub : TreeCache)
    (p : List GoStr) (k : GoStr) (rest : List GoStr) :
    (t.setSubCache label sub p).getEntry k (p ++ label :: rest) = sub.getEntry k rest := by
  induction p generalizing t with
  | nil =>
    rw [TreeCache.setSubCache, List.nil_append, TreeCache.getEntry, TreeCache.childrenOf,
      alookup_ainsert_self]
  | cons l p' ih =>
    rw [TreeCache.setSubCache, List.cons_append, TreeCache.getEntry, TreeCache.childrenOf,
      alookup_ainsert_self]
    exact ih _

theorem lastWrite_foldl_aux (k : GoStr) (p : List GoStr) (ws : List EntryWrite)
    (acc : Option SkyService) :
    ws.foldl (fun acc w => if w.1 = k ∧ w.2.2 = p then some w.2.1 else acc) acc =
      match lastWrite k p ws with
      | some v => some v
      | none => acc := by
  induction ws generalizing acc with
  | nil => rfl
  | cons w ws ih =>
    rw [List.foldl_cons, ih]
    have h2 : lastWrite k p (w :: ws) =
        match lastWrite k p ws with
        | some v => some v
        | none => if w.1 = k ∧ w.2.2 = p then some w.2.1 else none := by
      rw [lastWrite, List.foldl_cons]
      exact ih _
    rw [h2]
    by_cases hw : w.1 = k ∧ w.2.2 = p
    · rw [if_pos hw, if_pos hw]
      cases lastWrite k p ws <;> rfl
    · rw [if_neg hw, if_neg hw]
      cases lastWrite k p ws <;> rfl

theorem lastWrite_cons (k : GoStr) (p : List GoStr) (w : EntryWrite) (ws : List EntryWrite) :
    lastWrite k p (w :: ws) =
      match lastWrite k p ws with
      | some v => some v
      | none => if w.1 = k ∧ w.2.2 = p then some w.2.1 else none := by
  rw [lastWrite, List.foldl_cons]
  exact lastWrite_foldl_aux k p ws _

theorem applyWrites_getEntry (ws : List EntryWrite) (t : TreeCache) (k : GoStr)
    (p : List GoStr) :
    (applyWrites t ws).getEntry k p =
      match lastWrite k p ws with
      | some v => some v
      | none => t.getEntry k p := by
  induction ws generalizing t with
  | nil => rfl
  | cons w ws ih =>
    rw [applyWrites, List.foldl_cons]
    have hfold : ws.foldl (fun t w => t.setEntry w.1 w.2.1 w.2.2)
        (t.setEntry w.1 w.2.1 w.2.2) = applyWrites (t.setEntry w.1 w.2.1 w.2.2) ws := rfl
    rw [hfold, ih, lastWrite_cons]
    cases hlw : lastWrite k p ws with
    | some v => rfl
    | none =>
      by_cases hw : w.1 = k ∧ w.2.2 = p
      · rw [if_pos hw]
        obtain ⟨hk, hp⟩ := hw
        rw [← hk, ← hp]
        exact getEntry_setEntry_same t w.1 w.2.1 w.2.2
      · rw [if_neg hw]
        apply getEntry_setEntry_other
        rintro ⟨h1, h2⟩
        exact hw ⟨h1.symm, h2.symm⟩

theorem lastWrite_some_mem (k : GoStr) (p : List GoStr) (ws : List EntryWrite)
    (v : SkyService) (h : lastWrite k p ws = some v) :
    ∃ w ∈ ws, w.1 = k ∧ w.2.2 = p ∧ w.2.1 = v := by
  induction ws with
  | nil => cases h
  | cons w ws ih =>
    rw [lastWrite_cons] at h
    cases hlw : lastWrite k p ws with
    | some v' =>
      rw [hlw] at h
      injection h with hv
      subst hv
      obtain ⟨w2, hmem, h1, h2, h3⟩ := ih hlw
      exact ⟨w2, List.mem_cons_of_mem w hmem, h1, h2, h3⟩
    | none =>
      rw [hlw] at h
      by_cases hw : w.1 = k ∧ w.2.2 = p
      · rw [if_pos hw] at h
        injection h with hv
        exact ⟨w, List.mem_cons_self w ws, hw.1, hw.2, hv⟩
      · rw [if_neg hw] at h
        cases h

theorem lastWrite_none_no_match (k : GoStr) (p : List GoStr) (ws : List EntryWrite)
    (h : lastWrite k p ws = none) : ∀ w ∈ ws, ¬(w.1 = k ∧ w.2.2 = p) := by
  induction ws with
  | nil => intro w hw; cases hw
  | cons w ws ih =>
    rw [lastWrite_cons] at h
    cases hlw : lastWrite k p ws with
    | some v => rw [hlw] at h; cases h
    | none =>
      rw [hlw] at h
      intro w2 hmem
      rcases List.mem_cons.mp hmem with heq | hmem2
      · subst heq
        intro hm
        rw [if_pos hm] at h
        cases h
      · exact ih hlw w2 hmem2

theorem lastWrite_eq_some_of (k : GoStr) (p : List GoStr) (ws : List EntryWrite)
    (v : SkyService) (hex : ∃ w ∈ ws, w.1 = k ∧ w.2.2 = p)
    (huniq : ∀ w ∈ ws, w.1 = k → w.2.2 = p → w.2.1 = v) :
    lastWrite k p ws = some v := by
  cases hlw : lastWrite k p ws with
  | none =>
    obtain ⟨w, hmem, hm⟩ := hex
    exact absurd hm (lastWrite_none_no_match k p ws hlw w hmem)
  | some v' =>
    obtain ⟨w, hmem, h1, h2, h3⟩ := lastWrite_some_mem k p ws v' hlw
    rw [huniq w hmem h1 h2] at h3
    rw [h3]

theorem applyWrites_append (t : TreeCache) (a b : List EntryWrite) :
    applyWrites t (a ++ b) = applyWrites (applyWrites t a) b := by
  rw [applyWrites, applyWrites, applyWrites, List.foldl_append]

theorem applyWrites_filterMapSRV (kd : KubeDNSStatic) (service : KService) (key : GoStr)
    (ports : List ServicePort) (sc : TreeCache) :
    applyWrites sc (ports.filterMap fun port =>
        if port.name = [] ∨ port.protocol = [] then none
        else some (key, generateSRVRecordValue kd service port.port [],
          [['_'] ++ port.protocol.map Char.toLower, ['_'] ++ port.name])) =
      ports.foldl (fun subCache port =>
        if port.name = [] ∨ port.protocol = [] then subCache
        else subCache.setEntry key (generateSRVRecordValue kd service port.port [])
          [['_'] ++ port.protocol.map Char.toLower, ['_'] ++ port.name]) sc := by
  induction ports generalizing sc with
  | nil => rfl
  | cons p ps ih =>
    rw [List.filterMap_cons, List.foldl_cons]
    by_cases hp : p.name = [] ∨ p.protocol = []
    · rw [if_pos hp, if_pos hp]
      exact ih sc
    · rw [if_neg hp, if_neg hp]
      rw [applyWrites, List.foldl_cons]
      exact ih _

theorem portalSubCache_eq_applyWrites (kd : KubeDNSStatic) (service : KService) :
    portalSubCache kd service = applyWrites newTreeCache (portalWrites kd service) := by
  rw [portalSubCache, portalWrites]
  generalize newTreeCache = t0
  induction getClusterIPs service generalizing t0 with
  | nil => rfl
  | cons ip ips ih =>
    rw [List.foldl_cons, List.flatMap_cons, applyWrites_append, ← ih]
    have hone : applyWrites t0 (((getSkyMsg ip 0).2, (getSkyMsg ip 0).1, ([] : List GoStr)) ::
        service.ports.filterMap fun port =>
          if port.name = [] ∨ port.protocol = [] then none
          else some ((getSkyMsg ip 0).2, generateSRVRecordValue kd service port.port [],
            [['_'] ++ port.protocol.map Char.toLower, ['_'] ++ port.name])) =
        service.ports.foldl (fun subCache port =>
          if port.name = [] ∨ port.protocol = [] then subCache
          else subCache.setEntry (getSkyMsg ip 0).2
            (generateSRVRecordValue kd service port.port [])
            [['_'] ++ port.protocol.map Char.toLower, ['_'] ++ port.name])
          (t0.setEntry (getSkyMsg ip 0).2 (getSkyMsg ip 0).1 []) := by
      rw [applyWrites, List.foldl_cons]
      exact applyWrites_filterMapSRV kd service (getSkyMsg ip 0).2 service.ports _
    rw [hone]

/-- C5 (amended): for every cluster IP and every port with non-empty name and
protocol, the portal subtree holds an SRV record at child path
`["_"+lower(protocol), "_"+name]` under the same hash leaf key as the A
record, whose port is the service port and whose host is
`<svc>.<ns>.svc.<domain>` with no trailing dot; the A record sits at the
subtree root under that key; every depth-two entry arises from such a port,
so ports lacking a name or a protocol produce no SRV record; and
`newPortalService` installs the subtree beneath the service node. -/
theorem portal_srv_record_layout (kd : KubeDNSStatic) (st : KubeDNSState)
    (service : KService)
    (hnodup : (service.ports.map ServicePort.name).Nodup)
    (hinj : ∀ ip1 ∈ getClusterIPs service, ∀ ip2 ∈ getClusterIPs service,
      (getSkyMsg ip1 0).2 = (getSkyMsg ip2 0).2 → ip1 = ip2) :
    (∀ ip ∈ getClusterIPs service, ∀ port ∈ service.ports,
      port.name ≠ [] → port.protocol ≠ [] →
      (portalSubCache kd service).getEntry (getSkyMsg ip 0).2
          [['_'] ++ port.protocol.map Char.toLower, ['_'] ++ port.name] =
        some { host := goJoin (str ".") [service.name, service.nsName, svcLabel, kd.domain],
               port := port.port, priority := 10, weight := 10, text := [], mail := false,
               ttl := 30, targetStrip := 0, group := [], key := [] } ∧
      (portalSubCache kd service).getEntry (getSkyMsg ip 0).2 [] =
        some (newServiceRecord ip 0)) ∧
    (∀ k a b v, (portalSubCache kd service).getEntry k [a, b] = some v →
      ∃ ip ∈ getClusterIPs service, ∃ port ∈ service.ports,
        port.name ≠ [] ∧ port.protocol ≠ [] ∧ k = (getSkyMsg ip 0).2 ∧
        a = ['_'] ++ port.protocol.map Char.toLower ∧ b = ['_'] ++ port.name ∧
        v = generateSRVRecordValue kd service port.port []) ∧
    (∀ k rest, (newPortalService kd st service).cache.getEntry k
        ((kd.domainPath ++ [svcLabel, service.nsName]) ++ service.name :: rest) =
      (portalSubCache kd service).getEntry k rest) := by
  refine ⟨?_, ?_, ?_⟩
  · intro ip hip port hport hn hp
    constructor
    · rw [portalSubCache_eq_applyWrites, applyWrites_getEntry]
      have hlw : lastWrite (getSkyMsg ip 0).2
          [['_'] ++ port.protocol.map Char.toLower, ['_'] ++ port.name]
          (portalWrites kd service) =
          some (generateSRVRecordValue kd service port.port []) := by
        apply lastWrite_eq_some_of
        · refine ⟨((getSkyMsg ip 0).2, generateSRVRecordValue kd service port.port [],
            [['_'] ++ port.protocol.map Char.toLower, ['_'] ++ port.name]), ?_, rfl, rfl⟩
          rw [portalWrites, List.mem_flatMap]
          refine ⟨ip, hip, ?_⟩
          apply List.mem_cons_of_mem
          rw [List.mem_filterMap]
          refine ⟨port, hport, ?_⟩
          rw [if_neg (by rw [not_or]; exact ⟨hn, hp⟩)]
        · intro w hw hwk hwp
          rw [portalWrites, List.mem_flatMap] at hw
          obtain ⟨ip', hip', hw⟩ := hw
          rcases List.mem_cons.mp hw with heq | hmem
          · subst heq
            cases hwp
          · rw [List.mem_filterMap] at hmem
            obtain ⟨q, hq, hqe⟩ := hmem
            by_cases hqv : q.name = [] ∨ q.protocol = []
            · rw [if_pos hqv] at hqe; cases hqe
            · rw [if_neg hqv] at hqe
              injection hqe with hqe
              rw [← hqe] at hwp
              have hname : q.name = port.name := by
                have := (List.cons.injEq .. ▸ hwp).2
                have := (List.cons.injEq .. ▸ this).1
                exact (List.cons.injEq .. ▸ this).2
              have hqp : q = port :=
                List.inj_on_of_nodup_map hnodup hq hport hname
              rw [← hqe, ← hqp]
      rw [hlw]
      rfl
    · rw [portalSubCache_eq_applyWrites, applyWrites_getEntry]
      have hlw : lastWrite (getSkyMsg ip 0).2 [] (portalWrites kd service) =
          some (newServiceRecord ip 0) := by
        apply lastWrite_eq_some_of
        · refine ⟨((getSkyMsg ip 0).2, (getSkyMsg ip 0).1, ([] : List GoStr)), ?_, rfl, rfl⟩
          rw [portalWrites, List.mem_flatMap]
          exact ⟨ip, hip, List.mem_cons_self _ _⟩
        · intro w hw hwk hwp
          rw [portalWrites, List.mem_flatMap] at hw
          obtain ⟨ip', hip', hw⟩ := hw
          rcases List.mem_cons.mp hw with heq | hmem
          · subst heq
            have hii : ip' = ip := hinj ip' hip' ip hip hwk
            rw [hii]
            rfl
          · rw [List.mem_filterMap] at hmem
            obtain ⟨q, hq, hqe⟩ := hmem
            by_cases hqv : q.name = [] ∨ q.protocol = []
            · rw [if_pos hqv] at hqe; cases hqe
            · rw [if_neg hqv] at hqe
              injection hqe with hqe
              rw [← hqe] at hwp
              cases hwp
      rw [hlw]
  · intro k a b v h
    rw [portalSubCache_eq_applyWrites, applyWrites_getEntry] at h
    cases hlw : lastWrite k [a, b] (portalWrites kd service) with
    | none =>
      rw [hlw] at h
      simp only [newTreeCache, TreeCache.getEntry, TreeCache.childrenOf, alookup] at h
      exact Option.noConfusion h
    | some v' =>
      rw [hlw] at h
      injection h with hv
      subst hv
      obtain ⟨w, hw, hwk, hwp, hwv⟩ := lastWrite_some_mem k [a, b] _ v' hlw
      rw [portalWrites, List.mem_flatMap] at hw
      obtain ⟨ip', hip', hw⟩ := hw
      rcases List.mem_cons.mp hw with heq | hmem
      · subst heq
        cases hwp
      · rw [List.mem_filterMap] at hmem
        obtain ⟨q, hq, hqe⟩ := hmem
        by_cases hqv : q.name = [] ∨ q.protocol = []
        · rw [if_pos hqv] at hqe; cases hqe
        · rw [if_neg hqv] at hqe
          injection hqe with hqe
          rw [not_or] at hqv
          refine ⟨ip', hip', q, hq, hqv.1, hqv.2, ?_, ?_, ?_, ?_⟩
          · rw [← hqe] at hwk; exact hwk.symm
          · rw [← hqe] at hwp
            exact ((List.cons.injEq .. ▸ hwp).1).symm
          · rw [← hqe] at hwp
            have := (List.cons.injEq .. ▸ hwp).2
            exact ((List.cons.injEq .. ▸ this).1).symm
          · rw [← hqe] at hwv; exact hwv.symm
  · intro k rest
    exact getEntry_setSubCache st.cache service.name (portalSubCache kd service)
      (kd.domainPath ++ [svcLabel, service.nsName]) k rest

/-- C5 counterexample to the original claim: the stored SRV host has no
trailing dot.  For service `web` in `prod` with port `http/TCP/80` on domain
`cluster.local`, the SRV record's host is `web.prod.svc.cluster.local`, not
`web.prod.svc.cluster.local.`. -/
theorem portal_srv_no_trailing_dot :
    (portalSubCache ⟨str "cluster.local", [str "local", str "cluster"]⟩
        ⟨str "web", str "prod", str "ClusterIP", str "10.0.0.5", [],
          [⟨str "http", str "TCP", 80⟩], []⟩).getEntry
        (getSkyMsg (str "10.0.0.5") 0).2 [str "_tcp", str "_http"] =
      some { host := str "web.prod.svc.cluster.local", port := 80, priority := 10,
             weight := 10, text := [], mail := false, ttl := 30, targetStrip := 0,
             group := [], key := [] } ∧
    str "web.prod.svc.cluster.local" ≠ str "web.prod.svc.cluster.local." := by
  decide

/-- Witness for C5 on the same service. -/
theorem portal_srv_record_layout_witness :
    (portalSubCache ⟨str "cluster.local", [str "local", str "cluster"]⟩
        ⟨str "web", str "prod", str "ClusterIP", str "10.0.0.5", [],
          [⟨str "http", str "TCP", 80⟩], []⟩).getEntry
        (getSkyMsg (str "10.0.0.5") 0).2
        [['_'] ++ (str "TCP").map Char.toLower, ['_'] ++ str "http"] =
      some { host := goJoin (str ".") [str "web", str "prod", svcLabel, str "cluster.local"],
             port := 80, priority := 10, weight := 10, text := [], mail := false,
             ttl := 30, targetStrip := 0, group := [], key := [] } := by
  have h := (portal_srv_record_layout ⟨str "cluster.local", [str "local", str "cluster"]⟩
    ⟨newTreeCache, [], []⟩
    ⟨str "web", str "prod", str "ClusterIP", str "10.0.0.5", [],
      [⟨str "http", str "TCP", 80⟩], []⟩ (by decide) (by decide)).1
  exact (h (str "10.0.0.5") (by decide) ⟨str "http", str "TCP", 80⟩ (by decide)
    (by decide) (by decide)).1

theorem amem_cons {α β : Type} [DecidableEq α] (k : α) (v : β) (rest : List (α × β))
    (x : α) : amem ((k, v) :: rest) x = (decide (k = x) || amem rest x) := by
  rw [amem, alookup]
  by_cases h : k = x
  · rw [if_pos h]
    simp [h]
  · rw [if_neg h, ← amem]
    simp [h]

theorem amem_keys {α β : Type} [DecidableEq α] (m : List (α × β)) (x : α) :
    amem m x = decide (x ∈ m.map Prod.fst) := by
  induction m with
  | nil => rfl
  | cons p rest ih =>
    obtain ⟨k, v⟩ := p
    rw [amem_cons, ih]
    by_cases hk : k = x
    · subst hk
      simp
    · simp [hk, Ne.symm hk]

theorem amem_foldl_insPair (L : List (GoStr × SkyService)) (m : List (GoStr × SkyService))
    (x : GoStr) :
    amem (L.foldl (fun m p => ainsert m p.1 p.2) m) x = (amem L x || amem m x) := by
  induction L generalizing m with
  | nil => rfl
  | cons p rest ih =>
    rw [List.foldl_cons, ih, amem_ainsert]
    obtain ⟨k, v⟩ := p
    rw [amem_cons]
    by_cases hk : x = k
    · subst hk
      simp
    · simp [hk, Ne.symm hk, Bool.or_left_comm]

theorem amem_foldl_aerase {α β : Type} [DecidableEq α] (keys : List α)
    (m : List (α × β)) (x : α) :
    amem (keys.foldl aerase m) x = (!(decide (x ∈ keys)) && amem m x) := by
  induction keys generalizing m with
  | nil => simp
  | cons k rest ih =>
    rw [List.foldl_cons, ih, amem_aerase]
    by_cases hx : x = k
    · subst hx
      simp
    · simp [hx]


theorem bool_ne_true {b : Bool} (h : ¬(b = true)) : b = false := by
  cases b
  · rfl
  · exact absurd rfl h

theorem headlessComputation_inner_snd (kd : KubeDNSStatic) (svc : KService)
    (subset : EndpointSubset) (addrs : List EndpointAddress)
    (acc : TreeCache × List (GoStr × SkyService)) :
    (addrs.foldl
        (fun (acc : TreeCache × List (GoStr × SkyService)) address =>
          (headlessAddressCache kd svc subset address acc.1,
           headlessAddressReverse kd svc address acc.2)) acc).2 =
      addrs.foldl (fun m address => headlessAddressReverse kd svc address m) acc.2 := by
  induction addrs generalizing acc with
  | nil => rfl
  | cons a rest ih =>
    rw [List.foldl_cons, List.foldl_cons]
    exact ih _

theorem headlessComputation_snd (kd : KubeDNSStatic) (e : KEndpoints) (svc : KService) :
    (headlessComputation kd e svc).2 =
      e.subsets.foldl
        (fun m subset =>
          subset.addresses.foldl (fun m address => headlessAddressReverse kd svc address m) m)
        [] := by
  rw [headlessComputation]
  suffices h : ∀ (subs : List EndpointSubset) (acc : TreeCache × List (GoStr × SkyService)),
      (subs.foldl
          (fun acc subset =>
            subset.addresses.foldl
              (fun (acc : TreeCache × List (GoStr × SkyService)) address =>
                (headlessAddressCache kd svc subset address acc.1,
                 headlessAddressReverse kd svc address acc.2))
              acc)
          acc).2 =
        subs.foldl
          (fun m subset =>
            subset.addresses.foldl (fun m address => headlessAddressReverse kd svc address m) m)
          acc.2 by
    exact h e.subsets (newTreeCache, [])
  intro subs
  induction subs with
  | nil =>
    intro acc
    rfl
  | cons ss rest ih =>
    intro acc
    rw [List.foldl_cons, List.foldl_cons, ih, headlessComputation_inner_snd]

theorem amem_foldl_headlessAddressReverse (kd : KubeDNSStatic) (svc : KService)
    (addrs : List EndpointAddress) (m : List (GoStr × SkyService)) (x : GoStr) :
    amem (addrs.foldl (fun m address => headlessAddressReverse kd svc address m) m) x =
      (addrs.any (fun a => (getHostname a).2 && decide (a.ip = x)) || amem m x) := by
  induction addrs generalizing m with
  | nil => simp
  | cons a rest ih =>
    rw [List.foldl_cons, ih, List.any_cons]
    by_cases h2 : (getHostname a).2 = true
    · rw [headlessAddressReverse, if_pos h2, amem_ainsert]
      by_cases hx : x = a.ip
      · subst hx
        simp [h2]
      · simp [h2, hx, Ne.symm hx, Bool.or_left_comm]
    · rw [headlessAddressReverse, if_neg h2]
      simp [bool_ne_true h2]

theorem amem_headlessComputation (kd : KubeDNSStatic) (e : KEndpoints) (svc : KService)
    (x : GoStr) :
    amem (headlessComputation kd e svc).2 x = hostnamedIn e x := by
  rw [headlessComputation_snd]
  suffices h : ∀ (subs : List EndpointSubset) (m : List (GoStr × SkyService)),
      amem (subs.foldl
          (fun m subset =>
            subset.addresses.foldl (fun m address => headlessAddressReverse kd svc address m) m)
          m) x =
        (subs.any (fun subset =>
            subset.addresses.any fun address => (getHostname address).2 && decide (address.ip = x))
          || amem m x) by
    have h0 : amem ([] : List (GoStr × SkyService)) x = false := rfl
    rw [h e.subsets [], h0, Bool.or_false, hostnamedIn]
  intro subs
  induction subs with
  | nil =>
    intro m
    simp
  | cons ss rest ih =>
    intro m
    rw [List.foldl_cons, ih, amem_foldl_headlessAddressReverse, List.any_cons]
    simp [Bool.or_assoc, Bool.or_comm, Bool.or_left_comm]

theorem amem_foldl_hostIns (addrs : List EndpointAddress) (m : List (GoStr × Bool))
    (x : GoStr) :
    amem (addrs.foldl
        (fun m address => if (getHostname address).2 then ainsert m address.ip true else m)
        m) x =
      (addrs.any (fun a => (getHostname a).2 && decide (a.ip = x)) || amem m x) := by
  induction addrs generalizing m with
  | nil => simp
  | cons a rest ih =>
    rw [List.foldl_cons, ih, List.any_cons]
    by_cases h2 : (getHostname a).2 = true
    · rw [if_pos h2, amem_ainsert]
      by_cases hx : x = a.ip
      · subst hx
        simp [h2]
      · simp [h2, hx, Ne.symm hx, Bool.or_left_comm]
    · rw [if_neg h2]
      simp [bool_ne_true h2]

theorem amem_oldAddressMapInit (oldE : KEndpoints) (x : GoStr) :
    amem (oldAddressMapInit oldE) x = hostnamedIn oldE x := by
  rw [oldAddressMapInit]
  suffices h : ∀ (subs : List EndpointSubset) (m : List (GoStr × Bool)),
      amem (subs.foldl
          (fun m subset =>
            subset.addresses.foldl
              (fun m address =>
                if (getHostname address).2 then ainsert m address.ip true else m)
              m)
          m) x =
        (subs.any (fun subset =>
            subset.addresses.any fun address => (getHostname address).2 && decide (address.ip = x))
          || amem m x) by
    have h0 : amem ([] : List (GoStr × Bool)) x = false := rfl
    rw [h oldE.subsets [], h0, Bool.or_false, hostnamedIn]
  intro subs
  induction subs with
  | nil =>
    intro m
    simp
  | cons ss rest ih =>
    intro m
    rw [List.foldl_cons, ih, amem_foldl_hostIns, List.any_cons]
    simp [Bool.or_assoc, Bool.or_comm, Bool.or_left_comm]

theorem amem_foldl_prune (addrs : List EndpointAddress) (m : List (GoStr × Bool))
    (x : GoStr) :
    amem (addrs.foldl
        (fun m address =>
          if amem m address.ip then
            if (getHostname address).2 then aerase m address.ip else m
          else m)
        m) x =
      (amem m x && !(addrs.any fun a => (getHostname a).2 && decide (a.ip = x))) := by
  induction addrs generalizing m with
  | nil => simp
  | cons a rest ih =>
    rw [List.foldl_cons, ih, List.any_cons]
    have hbody : amem
        (if amem m a.ip then
          if (getHostname a).2 then aerase m a.ip else m
        else m) x =
        (amem m x && !((getHostname a).2 && decide (a.ip = x))) := by
      by_cases hm : amem m a.ip = true
      · rw [if_pos hm]
        by_cases h2 : (getHostname a).2 = true
        · rw [if_pos h2, amem_aerase]
          by_cases hx : x = a.ip
          · subst hx
            simp [h2]
          · simp [h2, hx, Ne.symm hx]
        · rw [if_neg h2]
          simp [bool_ne_true h2]
      · rw [if_neg hm]
        by_cases hx : x = a.ip
        · subst hx
          rw [Bool.not_eq_true] at hm
          simp [hm]
        · simp [hx, Ne.symm hx]
    rw [hbody]
    simp [Bool.not_or, Bool.and_assoc]

theorem amem_oldAddressMapPrune (m0 : List (GoStr × Bool)) (newE : KEndpoints)
    (x : GoStr) :
    amem (oldAddressMapPrune m0 newE) x = (amem m0 x && !(hostnamedIn newE x)) := by
  rw [oldAddressMapPrune]
  suffices h : ∀ (subs : List EndpointSubset) (m : List (GoStr × Bool)),
      amem (subs.foldl
          (fun m subset =>
            subset.addresses.foldl
              (fun m address =>
                if amem m address.ip then
                  if (getHostname address).2 then aerase m address.ip else m
                else m)
              m)
          m) x =
        (amem m x && !(subs.any fun subset =>
            subset.addresses.any fun address =>
              (getHostname address).2 && decide (address.ip = x))) by
    rw [h newE.subsets m0, hostnamedIn]
  intro subs
  induction subs with
  | nil =>
    intro m
    simp
  | cons ss rest ih =>
    intro m
    rw [List.foldl_cons, ih, amem_foldl_prune, List.any_cons]
    simp [Bool.not_or, Bool.and_assoc]

theorem amem_foldl_eraseHost (addrs : List EndpointAddress) (m : List (GoStr × SkyService))
    (x : GoStr) :
    amem (addrs.foldl
        (fun m address => if (getHostname address).2 then aerase m address.ip else m)
        m) x =
      (!(addrs.any fun a => (getHostname a).2 && decide (a.ip = x)) && amem m x) := by
  induction addrs generalizing m with
  | nil => simp
  | cons a rest ih =>
    rw [List.foldl_cons, ih, List.any_cons]
    by_cases h2 : (getHostname a).2 = true
    · rw [if_pos h2, amem_aerase]
      by_cases hx : x = a.ip
      · subst hx
        simp [h2]
      · simp [h2, hx, Ne.symm hx, Bool.and_left_comm]
    · rw [if_neg h2]
      simp [bool_ne_true h2]

theorem amem_epDeleteFold (e : KEndpoints) (m : List (GoStr × SkyService)) (x : GoStr) :
    amem (e.subsets.foldl
        (fun m subset =>
          subset.addresses.foldl
            (fun m address => if (getHostname address).2 then aerase m address.ip else m)
            m)
        m) x =
      (!(hostnamedIn e x) && amem m x) := by
  suffices h : ∀ (subs : List EndpointSubset) (m : List (GoStr × SkyService)),
      amem (subs.foldl
          (fun m subset =>
            subset.addresses.foldl
              (fun m address => if (getHostname address).2 then aerase m address.ip else m)
              m)
          m) x =
        (!(subs.any fun subset =>
            subset.addresses.any fun address =>
              (getHostname address).2 && decide (address.ip = x)) && amem m x) by
    rw [h e.subsets m, hostnamedIn]
  intro subs
  induction subs with
  | nil =>
    intro m
    simp
  | cons ss rest ih =>
    intro m
    rw [List.foldl_cons, ih, amem_foldl_eraseHost, List.any_cons]
    simp [Bool.not_or, Bool.and_assoc, Bool.and_comm, Bool.and_left_comm]

theorem amem_foldl_ainsert_const (l : List GoStr) (v : SkyService)
    (m : List (GoStr × SkyService)) (x : GoStr) :
    amem (l.foldl (fun m ip => ainsert m ip v) m) x = (decide (x ∈ l) || amem m x) := by
  induction l generalizing m with
  | nil => simp
  | cons k rest ih =>
    rw [List.foldl_cons, ih, amem_ainsert]
    by_cases hx : x = k
    · subst hx
      simp
    · simp [hx, Bool.or_left_comm]

theorem reverse_newPortalService (kd : KubeDNSStatic) (st : KubeDNSState)
    (service : KService) (x : GoStr) :
    amem (newPortalService kd st service).reverseRecordMap x =
      (decide (x ∈ getClusterIPs service) || amem st.reverseRecordMap x) := by
  simp only [newPortalService]
  rw [amem_foldl_ainsert_const]

theorem reverse_newExternalNameService (kd : KubeDNSStatic) (st : KubeDNSState)
    (service : KService) :
    (newExternalNameService kd st service).reverseRecordMap = st.reverseRecordMap := rfl

theorem reverse_generateRecordsForHeadless (kd : KubeDNSStatic) (st : KubeDNSState)
    (e : KEndpoints) (svc : KService) (x : GoStr) :
    amem (generateRecordsForHeadlessService kd st e svc).reverseRecordMap x =
      (hostnamedIn e x || amem st.reverseRecordMap x) := by
  simp only [generateRecordsForHeadlessService]
  rw [amem_foldl_insPair, amem_headlessComputation]

theorem reverse_removeService (kd : KubeDNSStatic) (st : KubeDNSState) (s : KService)
    (x : GoStr) :
    amem (removeService kd st s).reverseRecordMap x =
      (if isServiceIPSet s then
        !(decide (x ∈ getClusterIPs s)) && amem st.reverseRecordMap x
      else amem st.reverseRecordMap x) := by
  simp only [removeService]
  by_cases h : isServiceIPSet s = true
  · rw [if_pos h, if_pos h]
    dsimp only
    rw [amem_foldl_aerase]
    congr 2
    exact decide_eq_decide.mpr Iff.rfl
  · rw [if_neg h, if_neg h]

theorem reverse_handleEndpointUpdate_headless (kd : KubeDNSStatic) (stores : Stores)
    (st : KubeDNSState) (oldE newE : KEndpoints) (svc : KService)
    (hsvc : getServiceFromEndpoints stores oldE = some svc)
    (hk : epKey oldE = epKey newE)
    (hip : isServiceIPSet svc = false)
    (hen : svc.specType ≠ externalNameType) (x : GoStr) :
    amem (handleEndpointUpdate kd stores st oldE newE).reverseRecordMap x =
      (hostnamedIn newE x ||
        (!(hostnamedIn oldE x && !(hostnamedIn newE x)) && amem st.reverseRecordMap x)) := by
  have hsvc' : getServiceFromEndpoints stores newE = some svc := by
    rw [getServiceFromEndpoints, ← hk, ← getServiceFromEndpoints]
    exact hsvc
  simp only [handleEndpointUpdate]
  rw [hsvc]
  dsimp only
  rw [if_pos hip]
  rw [handleEndpointAdd, addDNSUsingEndpoints, hsvc']
  dsimp only
  rw [if_neg (by rw [hip]; simp [hen]), reverse_generateRecordsForHeadless]
  dsimp only
  rw [amem_foldl_aerase, ← amem_keys, amem_oldAddressMapPrune, amem_oldAddressMapInit]

/-- C4: for an endpoints update event whose owning service is headless (and
not ExternalName), exactly those previously present reverse entries whose IP
carried a hostname in the old endpoints object but is absent from the new
one, or present there without a hostname, end up deleted from the reverse
record map; old IPs still carried with a hostname keep their entry. -/
theorem endpoint_update_reverse_deletions (kd : KubeDNSStatic) (stores : Stores)
    (st : KubeDNSState) (oldE newE : KEndpoints) (svc : KService)
    (hsvc : getServiceFromEndpoints stores oldE = some svc)
    (hk : epKey oldE = epKey newE)
    (hip : isServiceIPSet svc = false)
    (hen : svc.specType ≠ externalNameType) :
    ∀ ip, amem st.reverseRecordMap ip = true →
      (amem (handleEndpointUpdate kd stores st oldE newE).reverseRecordMap ip = false ↔
        (hostnamedIn oldE ip = true ∧ hostnamedIn newE ip = false)) := by
  intro ip hmem
  rw [reverse_handleEndpointUpdate_headless kd stores st oldE newE svc hsvc hk hip hen ip,
    hmem]
  cases hA : hostnamedIn oldE ip <;> cases hB : hostnamedIn newE ip <;> simp

theorem endpoint_update_reverse_deletions_witness :
    amem (handleEndpointUpdate kdCluster
        ⟨[((str "ns", str "hs"), svcHeadless)], [((str "ns", str "hs"), epNoHostname)]⟩
        ⟨newTreeCache, [(str "10.1.1.1", (getSkyMsg (str "10.1.1.1") 0).1)], []⟩
        epWithHostname epNoHostname).reverseRecordMap (str "10.1.1.1") = false := by
  exact (endpoint_update_reverse_deletions kdCluster
      ⟨[((str "ns", str "hs"), svcHeadless)], [((str "ns", str "hs"), epNoHostname)]⟩
      ⟨newTreeCache, [(str "10.1.1.1", (getSkyMsg (str "10.1.1.1") 0).1)], []⟩
      epWithHostname epNoHostname svcHeadless (by decide) (by decide) (by decide)
      (by decide) (str "10.1.1.1") (by decide)).mpr (by decide)

theorem alookup_mem {α β : Type} [DecidableEq α] {m : List (α × β)} {k : α} {v : β}
    (h : alookup m k = some v) : (k, v) ∈ m := by
  induction m with
  | nil => cases h
  | cons p rest ih =>
    obtain ⟨k', v'⟩ := p
    rw [alookup] at h
    by_cases hk : k' = k
    · rw [if_pos hk] at h
      injection h with h
      subst hk
      subst h
      exact List.mem_cons_self _ _
    · rw [if_neg hk] at h
      exact List.mem_cons_of_mem _ (ih h)

theorem hostnamedIn_exists {e : KEndpoints} {ip : GoStr}
    (h : hostnamedIn e ip = true) :
    ∃ ss ∈ e.subsets, ∃ a ∈ ss.addresses, (getHostname a).2 = true ∧ a.ip = ip := by
  rw [hostnamedIn, List.any_eq_true] at h
  obtain ⟨ss, hss, h⟩ := h
  rw [List.any_eq_true] at h
  obtain ⟨a, ha, h⟩ := h
  rw [Bool.and_eq_true, decide_eq_true_eq] at h
  exact ⟨ss, hss, a, ha, h.1, h.2⟩

theorem mem_epIPs_of {e : KEndpoints} {ss : EndpointSubset} {a : EndpointAddress}
    (hss : ss ∈ e.subsets) (ha : a ∈ ss.addresses) : a.ip ∈ epIPs e := by
  rw [epIPs, List.mem_flatten]
  exact ⟨ss.addresses.map (fun a => a.ip), List.mem_map_of_mem _ hss,
    List.mem_map_of_mem _ ha⟩

theorem hostnamedIn_mem_epIPs {e : KEndpoints} {ip : GoStr}
    (h : hostnamedIn e ip = true) : ip ∈ epIPs e := by
  obtain ⟨ss, hss, a, ha, _, hip⟩ := hostnamedIn_exists h
  exact hip ▸ mem_epIPs_of hss ha

theorem mem_svcIPs {s : KService} {ip : GoStr} (hset : isServiceIPSet s = true)
    (h : ip ∈ getClusterIPs s) : ip ∈ svcIPs s := by
  rw [svcIPs, if_pos hset]
  exact h

theorem wf_en_no_ip {w : World} (hwf : Wf w) {k : ObjKey} {s : KService}
    (h : alookup w.stores.servicesStore k = some s)
    (hen : s.specType = externalNameType) : isServiceIPSet s = false :=
  hwf.2.2.1 (k, s) (alookup_mem h) hen

theorem wf_svc_svc_disjoint {w : World} (hwf : Wf w) {k1 k2 : ObjKey}
    {s1 s2 : KService} (h1 : alookup w.stores.servicesStore k1 = some s1)
    (h2 : alookup w.stores.servicesStore k2 = some s2) (hk : k1 ≠ k2) {ip : GoStr}
    (hip1 : isServiceIPSet s1 = true) (hm1 : ip ∈ getClusterIPs s1)
    (hip2 : isServiceIPSet s2 = true) (hm2 : ip ∈ getClusterIPs s2) : False :=
  hwf.2.2.2.1 (k1, s1) (alookup_mem h1) (k2, s2) (alookup_mem h2) hk
    ip (mem_svcIPs hip1 hm1) (mem_svcIPs hip2 hm2)

theorem wf_svc_ep_disjoint {w : World} (hwf : Wf w) {k1 k2 : ObjKey}
    {s : KService} {e : KEndpoints} (h1 : alookup w.stores.servicesStore k1 = some s)
    (h2 : alookup w.stores.endpointsStore k2 = some e) {ip : GoStr}
    (hip : isServiceIPSet s = true) (hm : ip ∈ getClusterIPs s)
    (hine : ip ∈ epIPs e) : False :=
  hwf.2.2.2.2.1 (k1, s) (alookup_mem h1) (k2, e) (alookup_mem h2)
    ip (mem_svcIPs hip hm) hine

theorem wf_ep_ep_disjoint {w : World} (hwf : Wf w) {k1 k2 : ObjKey}
    {e1 e2 : KEndpoints} (h1 : alookup w.stores.endpointsStore k1 = some e1)
    (h2 : alookup w.stores.endpointsStore k2 = some e2) (hk : k1 ≠ k2) {ip : GoStr}
    (hm1 : ip ∈ epIPs e1) (hm2 : ip ∈ epIPs e2) : False :=
  hwf.2.2.2.2.2.1 (k1, e1) (alookup_mem h1) (k2, e2) (alookup_mem h2) hk ip hm1 hm2

theorem wf_hostname_consistent {w : World} (hwf : Wf w) {k : ObjKey}
    {e : KEndpoints} (h : alookup w.stores.endpointsStore k = some e)
    {ss : EndpointSubset} {a : EndpointAddress} (hss : ss ∈ e.subsets)
    (ha : a ∈ ss.addresses) (hno : (getHostname a).2 = false)
    (hh : hostnamedIn e a.ip = true) : False := by
  obtain ⟨ss2, hss2, b, hb, hbh, hbip⟩ := hostnamedIn_exists hh
  have := hwf.2.2.2.2.2.2 (k, e) (alookup_mem h) ss2 hss2 b hb ss hss a ha hbip
  rw [hno, hbh] at this
  cases this

theorem alookup_ainsert_cases {α β : Type} [DecidableEq α] {m : List (α × β)}
    {k0 k : α} {v0 v : β} (h : alookup (ainsert m k0 v0) k = some v) :
    (k = k0 ∧ v = v0) ∨ (k ≠ k0 ∧ alookup m k = some v) := by
  by_cases hk : k = k0
  · subst hk
    rw [alookup_ainsert_self] at h
    injection h with h
    exact Or.inl ⟨rfl, h.symm⟩
  · rw [alookup_ainsert_ne _ _ _ _ hk] at h
    exact Or.inr ⟨hk, h⟩

theorem alookup_aerase_cases {α β : Type} [DecidableEq α] {m : List (α × β)}
    {k0 k : α} {v : β} (h : alookup (aerase m k0) k = some v) :
    k ≠ k0 ∧ alookup m k = some v := by
  by_cases hk : k = k0
  · subst hk
    rw [alookup_aerase_self] at h
    cases h
  · rw [alookup_aerase_ne _ _ _ hk] at h
    exact ⟨hk, h⟩

theorem attrSvc_ainsert_iff (sst : List (ObjKey × KService)) (k0 : ObjKey)
    (s : KService) (ip : GoStr) :
    attrSvc (ainsert sst k0 s) ip ↔
      ((isServiceIPSet s = true ∧ ip ∈ getClusterIPs s) ∨
       ∃ k s', k ≠ k0 ∧ alookup sst k = some s' ∧ isServiceIPSet s' = true ∧
         ip ∈ getClusterIPs s') := by
  constructor
  · rintro ⟨k, s', h1, h2, h3⟩
    rcases alookup_ainsert_cases h1 with ⟨hk, hv⟩ | ⟨hk, h1⟩
    · subst hv
      exact Or.inl ⟨h2, h3⟩
    · exact Or.inr ⟨k, s', hk, h1, h2, h3⟩
  · rintro (⟨h2, h3⟩ | ⟨k, s', hk, h1, h2, h3⟩)
    · exact ⟨k0, s, alookup_ainsert_self _ _ _, h2, h3⟩
    · exact ⟨k, s', by rw [alookup_ainsert_ne _ _ _ _ hk]; exact h1, h2, h3⟩

theorem attrSvc_aerase_iff (sst : List (ObjKey × KService)) (k0 : ObjKey) (ip : GoStr) :
    attrSvc (aerase sst k0) ip ↔
      ∃ k s, k ≠ k0 ∧ alookup sst k = some s ∧ isServiceIPSet s = true ∧
        ip ∈ getClusterIPs s := by
  constructor
  · rintro ⟨k, s, h1, h2, h3⟩
    obtain ⟨hk, h1⟩ := alookup_aerase_cases h1
    exact ⟨k, s, hk, h1, h2, h3⟩
  · rintro ⟨k, s, hk, h1, h2, h3⟩
    exact ⟨k, s, by rw [alookup_aerase_ne _ _ _ hk]; exact h1, h2, h3⟩

theorem attrEp_sst_ainsert_iff (est : List (ObjKey × KEndpoints))
    (sst : List (ObjKey × KService)) (k0 : ObjKey) (s : KService) (ip : GoStr) :
    attrEp est (ainsert sst k0 s) ip ↔
      ((∃ e, alookup est k0 = some e ∧ s.specType ≠ externalNameType ∧
          isServiceIPSet s = false ∧ hostnamedIn e ip = true) ∨
       ∃ k e s', k ≠ k0 ∧ alookup est k = some e ∧ alookup sst k = some s' ∧
         s'.specType ≠ externalNameType ∧ isServiceIPSet s' = false ∧
         hostnamedIn e ip = true) := by
  constructor
  · rintro ⟨k, e, s', h1, h2, h3, h4, h5⟩
    rcases alookup_ainsert_cases h2 with ⟨hk, hv⟩ | ⟨hk, h2⟩
    · subst hk
      subst hv
      exact Or.inl ⟨e, h1, h3, h4, h5⟩
    · exact Or.inr ⟨k, e, s', hk, h1, h2, h3, h4, h5⟩
  · rintro (⟨e, h1, h3, h4, h5⟩ | ⟨k, e, s', hk, h1, h2, h3, h4, h5⟩)
    · exact ⟨k0, e, s, h1, alookup_ainsert_self _ _ _, h3, h4, h5⟩
    · exact ⟨k, e, s', h1, by rw [alookup_ainsert_ne _ _ _ _ hk]; exact h2, h3, h4, h5⟩

theorem attrEp_sst_aerase_iff (est : List (ObjKey × KEndpoints))
    (sst : List (ObjKey × KService)) (k0 : ObjKey) (ip : GoStr) :
    attrEp est (aerase sst k0) ip ↔
      ∃ k e s, k ≠ k0 ∧ alookup est k = some e ∧ alookup sst k = some s ∧
        s.specType ≠ externalNameType ∧ isServiceIPSet s = false ∧
        hostnamedIn e ip = true := by
  constructor
  · rintro ⟨k, e, s, h1, h2, h3, h4, h5⟩
    obtain ⟨hk, h2⟩ := alookup_aerase_cases h2
    exact ⟨k, e, s, hk, h1, h2, h3, h4, h5⟩
  · rintro ⟨k, e, s, hk, h1, h2, h3, h4, h5⟩
    exact ⟨k, e, s, h1, by rw [alookup_aerase_ne _ _ _ hk]; exact h2, h3, h4, h5⟩

theorem attrEp_est_ainsert_iff (est : List (ObjKey × KEndpoints))
    (sst : List (ObjKey × KService)) (k0 : ObjKey) (e0 : KEndpoints) (ip : GoStr) :
    attrEp (ainsert est k0 e0) sst ip ↔
      ((∃ s, alookup sst k0 = some s ∧ s.specType ≠ externalNameType ∧
          isServiceIPSet s = false ∧ hostnamedIn e0 ip = true) ∨
       ∃ k e s, k ≠ k0 ∧ alookup est k = some e ∧ alookup sst k = some s ∧
         s.specType ≠ externalNameType ∧ isServiceIPSet s = false ∧
         hostnamedIn e ip = true) := by
  constructor
  · rintro ⟨k, e, s, h1, h2, h3, h4, h5⟩
    rcases alookup_ainsert_cases h1 with ⟨hk, hv⟩ | ⟨hk, h1⟩
    · subst hk
      subst hv
      exact Or.inl ⟨s, h2, h3, h4, h5⟩
    · exact Or.inr ⟨k, e, s, hk, h1, h2, h3, h4, h5⟩
  · rintro (⟨s, h2, h3, h4, h5⟩ | ⟨k, e, s, hk, h1, h2, h3, h4, h5⟩)
    · exact ⟨k0, e0, s, alookup_ainsert_self _ _ _, h2, h3, h4, h5⟩
    · exact ⟨k, e, s, by rw [alookup_ainsert_ne _ _ _ _ hk]; exact h1, h2, h3, h4, h5⟩

theorem attrEp_est_aerase_iff (est : List (ObjKey × KEndpoints))
    (sst : List (ObjKey × KService)) (k0 : ObjKey) (ip : GoStr) :
    attrEp (aerase est k0) sst ip ↔
      ∃ k e s, k ≠ k0 ∧ alookup est k = some e ∧ alookup sst k = some s ∧
        s.specType ≠ externalNameType ∧ isServiceIPSet s = false ∧
        hostnamedIn e ip = true := by
  constructor
  · rintro ⟨k, e, s, h1, h2, h3, h4, h5⟩
    obtain ⟨hk, h1⟩ := alookup_aerase_cases h1
    exact ⟨k, e, s, hk, h1, h2, h3, h4, h5⟩
  · rintro ⟨k, e, s, hk, h1, h2, h3, h4, h5⟩
    exact ⟨k, e, s, by rw [alookup_aerase_ne _ _ _ hk]; exact h1, h2, h3, h4, h5⟩

theorem Inv0_initial : Inv0 initialWorld := by
  intro ip
  constructor
  · intro h
    cases h
  · rintro (⟨k, s, h1, _⟩ | ⟨k, e, s, h1, _⟩) <;> cases h1

theorem bool_ne_false {b : Bool} (h : ¬(b = false)) : b = true := by
  cases b
  · exact absurd rfl h
  · rfl

theorem Inv0_svcAdd (kd : KubeDNSStatic) (w : World) (s : KService)
    (hwf' : Wf (step kd w (.svcAdd s)))
    (hok : EventOk w (.svcAdd s)) (hinv : Inv0 w) :
    Inv0 (step kd w (.svcAdd s)) := by
  simp only [EventOk] at hok
  simp only [step] at hwf' ⊢
  simp only [Inv0]
  intro ip
  by_cases hen : s.specType = externalNameType
  · have hsIP : isServiceIPSet s = false :=
      wf_en_no_ip hwf' (alookup_ainsert_self w.stores.servicesStore (svcKey s) s) hen
    have hrev : (newService kd
        { w.stores with servicesStore := ainsert w.stores.servicesStore (svcKey s) s }
        w.st s).reverseRecordMap = w.st.reverseRecordMap := by
      rw [newService, if_pos hen]
      rfl
    rw [hrev, hinv ip, attrSvc_ainsert_iff, attrEp_sst_ainsert_iff]
    constructor
    · rintro (⟨k, s', h1, h2, h3⟩ | ⟨k, e, s', h1, h2, h3, h4, h5⟩)
      · have hk : k ≠ svcKey s := fun he => by rw [he, hok] at h1; cases h1
        exact Or.inl (Or.inr ⟨k, s', hk, h1, h2, h3⟩)
      · have hk : k ≠ svcKey s := fun he => by rw [he, hok] at h2; cases h2
        exact Or.inr (Or.inr ⟨k, e, s', hk, h1, h2, h3, h4, h5⟩)
    · rintro ((⟨h2, _⟩ | ⟨k, s', _, h1, h2, h3⟩) |
        (⟨e, _, h3, _, _⟩ | ⟨k, e, s', _, h1, h2, h3, h4, h5⟩))
      · rw [hsIP] at h2
        cases h2
      · exact Or.inl ⟨k, s', h1, h2, h3⟩
      · exact absurd hen h3
      · exact Or.inr ⟨k, e, s', h1, h2, h3, h4, h5⟩
  · by_cases hset : isServiceIPSet s = false
    · rcases hE : alookup w.stores.endpointsStore (svcKey s) with _ | e
      · have hrev : (newService kd
            { w.stores with servicesStore := ainsert w.stores.servicesStore (svcKey s) s }
            w.st s).reverseRecordMap = w.st.reverseRecordMap := by
          rw [newService, if_neg hen, if_pos hset, newHeadlessService]
          dsimp only
          rw [hE]
        rw [hrev, hinv ip, attrSvc_ainsert_iff, attrEp_sst_ainsert_iff]
        constructor
        · rintro (⟨k, s', h1, h2, h3⟩ | ⟨k, e, s', h1, h2, h3, h4, h5⟩)
          · have hk : k ≠ svcKey s := fun he => by rw [he, hok] at h1; cases h1
            exact Or.inl (Or.inr ⟨k, s', hk, h1, h2, h3⟩)
          · have hk : k ≠ svcKey s := fun he => by rw [he, hok] at h2; cases h2
            exact Or.inr (Or.inr ⟨k, e, s', hk, h1, h2, h3, h4, h5⟩)
        · rintro ((⟨h2, _⟩ | ⟨k, s', _, h1, h2, h3⟩) |
            (⟨e, h1, _, _, _⟩ | ⟨k, e, s', _, h1, h2, h3, h4, h5⟩))
          · rw [hset] at h2
            cases h2
          · exact Or.inl ⟨k, s', h1, h2, h3⟩
          · rw [hE] at h1
            cases h1
          · exact Or.inr ⟨k, e, s', h1, h2, h3, h4, h5⟩
      · have hrev : (newService kd
            { w.stores with servicesStore := ainsert w.stores.servicesStore (svcKey s) s }
            w.st s).reverseRecordMap =
            (generateRecordsForHeadlessService kd w.st e s).reverseRecordMap := by
          rw [newService, if_neg hen, if_pos hset, newHeadlessService]
          dsimp only
          rw [hE]
        rw [hrev, reverse_generateRecordsForHeadless, Bool.or_eq_true, hinv ip,
          attrSvc_ainsert_iff, attrEp_sst_ainsert_iff]
        constructor
        · rintro (hh | (⟨k, s', h1, h2, h3⟩ | ⟨k, e', s', h1, h2, h3, h4, h5⟩))
          · exact Or.inr (Or.inl ⟨e, hE, hen, hset, hh⟩)
          · have hk : k ≠ svcKey s := fun he => by rw [he, hok] at h1; cases h1
            exact Or.inl (Or.inr ⟨k, s', hk, h1, h2, h3⟩)
          · have hk : k ≠ svcKey s := fun he => by rw [he, hok] at h2; cases h2
            exact Or.inr (Or.inr ⟨k, e', s', hk, h1, h2, h3, h4, h5⟩)
        · rintro ((⟨h2, _⟩ | ⟨k, s', _, h1, h2, h3⟩) |
            (⟨e', h1, _, _, h5⟩ | ⟨k, e', s', _, h1, h2, h3, h4, h5⟩))
          · rw [hset] at h2
            cases h2
          · exact Or.inr (Or.inl ⟨k, s', h1, h2, h3⟩)
          · rw [hE] at h1
            injection h1 with h1
            subst h1
            exact Or.inl h5
          · exact Or.inr (Or.inr ⟨k, e', s', h1, h2, h3, h4, h5⟩)
    · have hset' : isServiceIPSet s = true := bool_ne_false hset
      have hrev : (newService kd
          { w.stores with servicesStore := ainsert w.stores.servicesStore (svcKey s) s }
          w.st s).reverseRecordMap = (newPortalService kd w.st s).reverseRecordMap := by
        rw [newService, if_neg hen, if_neg hset]
      rw [hrev, reverse_newPortalService, Bool.or_eq_true, decide_eq_true_eq, hinv ip,
        attrSvc_ainsert_iff, attrEp_sst_ainsert_iff]
      constructor
      · rintro (hin | (⟨k, s', h1, h2, h3⟩ | ⟨k, e', s', h1, h2, h3, h4, h5⟩))
        · exact Or.inl (Or.inl ⟨hset', hin⟩)
        · have hk : k ≠ svcKey s := fun he => by rw [he, hok] at h1; cases h1
          exact Or.inl (Or.inr ⟨k, s', hk, h1, h2, h3⟩)
        · have hk : k ≠ svcKey s := fun he => by rw [he, hok] at h2; cases h2
          exact Or.inr (Or.inr ⟨k, e', s', hk, h1, h2, h3, h4, h5⟩)
      · rintro ((⟨_, h3⟩ | ⟨k, s', _, h1, h2, h3⟩) |
          (⟨e', _, _, h4, _⟩ | ⟨k, e', s', _, h1, h2, h3, h4, h5⟩))
        · exact Or.inl h3
        · exact Or.inr (Or.inl ⟨k, s', h1, h2, h3⟩)
        · rw [hset'] at h4
          cases h4
        · exact Or.inr (Or.inr ⟨k, e', s', h1, h2, h3, h4, h5⟩)

theorem Inv0_svcUpdate (kd : KubeDNSStatic) (w : World) (oldS newS : KService)
    (hwf' : Wf (step kd w (.svcUpdate oldS newS)))
    (hok : EventOk w (.svcUpdate oldS newS)) (hinv : Inv0 w) :
    Inv0 (step kd w (.svcUpdate oldS newS)) := by
  simp only [EventOk] at hok
  obtain ⟨_, hstored, htype, hipeq, hceq⟩ := hok
  simp only [step] at hwf' ⊢
  simp only [Inv0]
  intro ip
  have svcEq : ∀ {k : ObjKey} {s' : KService}, k = svcKey newS →
      alookup w.stores.servicesStore k = some s' → s' = oldS := by
    intro k s' hk h1
    rw [hk, hstored] at h1
    injection h1 with h1
    exact h1.symm
  have hupd : updateService kd
      { w.stores with servicesStore := ainsert w.stores.servicesStore (svcKey newS) newS }
      w.st oldS newS =
      newService kd
        { w.stores with servicesStore := ainsert w.stores.servicesStore (svcKey newS) newS }
        w.st newS := by
    simp only [updateService]
    rw [if_neg (by rw [htype]; simp)]
  rw [hupd]
  by_cases hen : newS.specType = externalNameType
  · have hsIPn : isServiceIPSet newS = false :=
      wf_en_no_ip hwf' (alookup_ainsert_self w.stores.servicesStore (svcKey newS) newS) hen
    have hsIPo : isServiceIPSet oldS = false := hipeq.trans hsIPn
    have hrev : (newService kd
        { w.stores with servicesStore := ainsert w.stores.servicesStore (svcKey newS) newS }
        w.st newS).reverseRecordMap = w.st.reverseRecordMap := by
      rw [newService, if_pos hen]
      rfl
    rw [hrev, hinv ip, attrSvc_ainsert_iff, attrEp_sst_ainsert_iff]
    constructor
    · rintro (⟨k, s', h1, h2, h3⟩ | ⟨k, e, s', h1, h2, h3, h4, h5⟩)
      · by_cases hk : k = svcKey newS
        · rw [svcEq hk h1, hsIPo] at h2
          cases h2
        · exact Or.inl (Or.inr ⟨k, s', hk, h1, h2, h3⟩)
      · by_cases hk : k = svcKey newS
        · rw [svcEq hk h2, htype, hen] at h3
          exact absurd rfl h3
        · exact Or.inr (Or.inr ⟨k, e, s', hk, h1, h2, h3, h4, h5⟩)
    · rintro ((⟨h2, _⟩ | ⟨k, s', _, h1, h2, h3⟩) |
        (⟨e, _, h3, _, _⟩ | ⟨k, e, s', _, h1, h2, h3, h4, h5⟩))
      · rw [hsIPn] at h2
        cases h2
      · exact Or.inl ⟨k, s', h1, h2, h3⟩
      · exact absurd hen h3
      · exact Or.inr ⟨k, e, s', h1, h2, h3, h4, h5⟩
  · have heno : oldS.specType ≠ externalNameType := by
      rw [htype]
      exact hen
    by_cases hset : isServiceIPSet newS = false
    · have hseto : isServiceIPSet oldS = false := hipeq.trans hset
      rcases hE : alookup w.stores.endpointsStore (svcKey newS) with _ | e
      · have hrev : (newService kd
            { w.stores with
              servicesStore := ainsert w.stores.servicesStore (svcKey newS) newS }
            w.st newS).reverseRecordMap = w.st.reverseRecordMap := by
          rw [newService, if_neg hen, if_pos hset, newHeadlessService]
          dsimp only
          rw [hE]
        rw [hrev, hinv ip, attrSvc_ainsert_iff, attrEp_sst_ainsert_iff]
        constructor
        · rintro (⟨k, s', h1, h2, h3⟩ | ⟨k, e, s', h1, h2, h3, h4, h5⟩)
          · by_cases hk : k = svcKey newS
            · rw [svcEq hk h1, hseto] at h2
              cases h2
            · exact Or.inl (Or.inr ⟨k, s', hk, h1, h2, h3⟩)
          · by_cases hk : k = svcKey newS
            · rw [hk, hE] at h1
              cases h1
            · exact Or.inr (Or.inr ⟨k, e, s', hk, h1, h2, h3, h4, h5⟩)
        · rintro ((⟨h2, _⟩ | ⟨k, s', _, h1, h2, h3⟩) |
            (⟨e, h1, _, _, _⟩ | ⟨k, e, s', _, h1, h2, h3, h4, h5⟩))
          · rw [hset] at h2
            cases h2
          · exact Or.inl ⟨k, s', h1, h2, h3⟩
          · rw [hE] at h1
            cases h1
          · exact Or.inr ⟨k, e, s', h1, h2, h3, h4, h5⟩
      · have hrev : (newService kd
            { w.stores with
              servicesStore := ainsert w.stores.servicesStore (svcKey newS) newS }
            w.st newS).reverseRecordMap =
            (generateRecordsForHeadlessService kd w.st e newS).reverseRecordMap := by
          rw [newService, if_neg hen, if_pos hset, newHeadlessService]
          dsimp only
          rw [hE]
        rw [hrev, reverse_generateRecordsForHeadless, Bool.or_eq_true, hinv ip,
          attrSvc_ainsert_iff, attrEp_sst_ainsert_iff]
        constructor
        · rintro (hh | (⟨k, s', h1, h2, h3⟩ | ⟨k, e', s', h1, h2, h3, h4, h5⟩))
          · exact Or.inr (Or.inl ⟨e, hE, hen, hset, hh⟩)
          · by_cases hk : k = svcKey newS
            · rw [svcEq hk h1, hseto] at h2
              cases h2
            · exact Or.inl (Or.inr ⟨k, s', hk, h1, h2, h3⟩)
          · by_cases hk : k = svcKey newS
            · rw [hk, hE] at h1
              injection h1 with h1
              subst h1
              exact Or.inr (Or.inl ⟨e, hE, hen, hset, h5⟩)
            · exact Or.inr (Or.inr ⟨k, e', s', hk, h1, h2, h3, h4, h5⟩)
        · rintro ((⟨h2, _⟩ | ⟨k, s', _, h1, h2, h3⟩) |
            (⟨e', h1, _, _, h5⟩ | ⟨k, e', s', _, h1, h2, h3, h4, h5⟩))
          · rw [hset] at h2
            cases h2
          · exact Or.inr (Or.inl ⟨k, s', h1, h2, h3⟩)
          · rw [hE] at h1
            injection h1 with h1
            subst h1
            exact Or.inl h5
          · exact Or.inr (Or.inr ⟨k, e', s', h1, h2, h3, h4, h5⟩)
    · have hset' : isServiceIPSet newS = true := bool_ne_false hset
      have hseto' : isServiceIPSet oldS = true := hipeq.trans hset'
      have hrev : (newService kd
          { w.stores with servicesStore := ainsert w.stores.servicesStore (svcKey newS) newS }
          w.st newS).reverseRecordMap = (newPortalService kd w.st newS).reverseRecordMap := by
        rw [newService, if_neg hen, if_neg hset]
      rw [hrev, reverse_newPortalService, Bool.or_eq_true, decide_eq_true_eq, hinv ip,
        attrSvc_ainsert_iff, attrEp_sst_ainsert_iff]
      constructor
      · rintro (hin | (⟨k, s', h1, h2, h3⟩ | ⟨k, e', s', h1, h2, h3, h4, h5⟩))
        · exact Or.inl (Or.inl ⟨hset', hin⟩)
        · by_cases hk : k = svcKey newS
          · rw [svcEq hk h1] at h3
            rw [hceq] at h3
            exact Or.inl (Or.inl ⟨hset', h3⟩)
          · exact Or.inl (Or.inr ⟨k, s', hk, h1, h2, h3⟩)
        · by_cases hk : k = svcKey newS
          · rw [svcEq hk h2, hseto'] at h4
            cases h4
          · exact Or.inr (Or.inr ⟨k, e', s', hk, h1, h2, h3, h4, h5⟩)
      · rintro ((⟨_, h3⟩ | ⟨k, s', _, h1, h2, h3⟩) |
          (⟨e', _, _, h4, _⟩ | ⟨k, e', s', _, h1, h2, h3, h4, h5⟩))
        · exact Or.inl h3
        · exact Or.inr (Or.inl ⟨k, s', h1, h2, h3⟩)
        · rw [hset'] at h4
          cases h4
        · exact Or.inr (Or.inr ⟨k, e', s', h1, h2, h3, h4, h5⟩)

theorem Inv0_svcDelete (kd : KubeDNSStatic) (w : World) (s : KService)
    (hwf : Wf w) (hok : EventOk w (.svcDelete s)) (hinv : Inv0 w) :
    Inv0 (step kd w (.svcDelete s)) := by
  simp only [EventOk] at hok
  obtain ⟨hstored, hheadless⟩ := hok
  simp only [step, Inv0]
  intro ip
  have svcEqD : ∀ {k : ObjKey} {s' : KService}, k = svcKey s →
      alookup w.stores.servicesStore k = some s' → s' = s := by
    intro k s' hk h1
    rw [hk, hstored] at h1
    injection h1 with h1
    exact h1.symm
  by_cases hset : isServiceIPSet s = true
  · rw [reverse_removeService, if_pos hset]
    simp only [Bool.and_eq_true, Bool.not_eq_true', decide_eq_false_iff_not]
    rw [hinv ip, attrSvc_aerase_iff, attrEp_sst_aerase_iff]
    constructor
    · rintro ⟨hnin, (⟨k, s', h1, h2, h3⟩ | ⟨k, e, s', h1, h2, h3, h4, h5⟩)⟩
      · by_cases hk : k = svcKey s
        · rw [svcEqD hk h1] at h3
          exact absurd h3 hnin
        · exact Or.inl ⟨k, s', hk, h1, h2, h3⟩
      · by_cases hk : k = svcKey s
        · rw [svcEqD hk h2, hset] at h4
          cases h4
        · exact Or.inr ⟨k, e, s', hk, h1, h2, h3, h4, h5⟩
    · rintro (⟨k, s', hk, h1, h2, h3⟩ | ⟨k, e, s', hk, h1, h2, h3, h4, h5⟩)
      · refine ⟨?_, Or.inl ⟨k, s', h1, h2, h3⟩⟩
        intro hin
        exact wf_svc_svc_disjoint hwf h1 hstored hk h2 h3 hset hin
      · refine ⟨?_, Or.inr ⟨k, e, s', h1, h2, h3, h4, h5⟩⟩
        intro hin
        exact wf_svc_ep_disjoint hwf hstored h1 hset hin (hostnamedIn_mem_epIPs h5)
  · have hsetf : isServiceIPSet s = false := bool_ne_true hset
    have hE : alookup w.stores.endpointsStore (svcKey s) = none := hheadless hsetf
    rw [reverse_removeService, if_neg hset]
    rw [hinv ip, attrSvc_aerase_iff, attrEp_sst_aerase_iff]
    constructor
    · rintro (⟨k, s', h1, h2, h3⟩ | ⟨k, e, s', h1, h2, h3, h4, h5⟩)
      · by_cases hk : k = svcKey s
        · rw [svcEqD hk h1, hsetf] at h2
          cases h2
        · exact Or.inl ⟨k, s', hk, h1, h2, h3⟩
      · by_cases hk : k = svcKey s
        · rw [hk, hE] at h1
          cases h1
        · exact Or.inr ⟨k, e, s', hk, h1, h2, h3, h4, h5⟩
    · rintro (⟨k, s', _, h1, h2, h3⟩ | ⟨k, e, s', _, h1, h2, h3, h4, h5⟩)
      · exact Or.inl ⟨k, s', h1, h2, h3⟩
      · exact Or.inr ⟨k, e, s', h1, h2, h3, h4, h5⟩

theorem Inv0_epAdd (kd : KubeDNSStatic) (w : World) (e : KEndpoints)
    (hok : EventOk w (.epAdd e)) (hinv : Inv0 w) :
    Inv0 (step kd w (.epAdd e)) := by
  simp only [EventOk] at hok
  simp only [step, Inv0]
  intro ip
  rcases hS : alookup w.stores.servicesStore (epKey e) with _ | svc
  · have hrev : (handleEndpointAdd kd
        { w.stores with endpointsStore := ainsert w.stores.endpointsStore (epKey e) e }
        w.st e).reverseRecordMap = w.st.reverseRecordMap := by
      rw [handleEndpointAdd, addDNSUsingEndpoints, getServiceFromEndpoints]
      dsimp only
      rw [hS]
    rw [hrev, hinv ip, attrEp_est_ainsert_iff]
    constructor
    · rintro (⟨k, s', h1, h2, h3⟩ | ⟨k, e', s', h1, h2, h3, h4, h5⟩)
      · exact Or.inl ⟨k, s', h1, h2, h3⟩
      · have hk : k ≠ epKey e := fun he => by rw [he, hok] at h1; cases h1
        exact Or.inr (Or.inr ⟨k, e', s', hk, h1, h2, h3, h4, h5⟩)
    · rintro (⟨k, s', h1, h2, h3⟩ |
        (⟨s', h2, _, _, _⟩ | ⟨k, e', s', _, h1, h2, h3, h4, h5⟩))
      · exact Or.inl ⟨k, s', h1, h2, h3⟩
      · rw [hS] at h2
        cases h2
      · exact Or.inr ⟨k, e', s', h1, h2, h3, h4, h5⟩
  · by_cases hg : isServiceIPSet svc = true ∨ svc.specType = externalNameType
    · have hrev : (handleEndpointAdd kd
          { w.stores with endpointsStore := ainsert w.stores.endpointsStore (epKey e) e }
          w.st e).reverseRecordMap = w.st.reverseRecordMap := by
        rw [handleEndpointAdd, addDNSUsingEndpoints, getServiceFromEndpoints]
        dsimp only
        rw [hS]
        dsimp only
        rw [if_pos hg]
      rw [hrev, hinv ip, attrEp_est_ainsert_iff]
      constructor
      · rintro (⟨k, s', h1, h2, h3⟩ | ⟨k, e', s', h1, h2, h3, h4, h5⟩)
        · exact Or.inl ⟨k, s', h1, h2, h3⟩
        · have hk : k ≠ epKey e := fun he => by rw [he, hok] at h1; cases h1
          exact Or.inr (Or.inr ⟨k, e', s', hk, h1, h2, h3, h4, h5⟩)
      · rintro (⟨k, s', h1, h2, h3⟩ |
          (⟨s', h2, h3, h4, _⟩ | ⟨k, e', s', _, h1, h2, h3, h4, h5⟩))
        · exact Or.inl ⟨k, s', h1, h2, h3⟩
        · rw [hS] at h2
          injection h2 with h2
          subst h2
          rcases hg with hg | hg
          · rw [hg] at h4
            cases h4
          · exact absurd hg h3
        · exact Or.inr ⟨k, e', s', h1, h2, h3, h4, h5⟩
    · rw [not_or] at hg
      obtain ⟨hg1, hg2⟩ := hg
      have hnsetf : isServiceIPSet svc = false := bool_ne_true hg1
      have hrev : (handleEndpointAdd kd
          { w.stores with endpointsStore := ainsert w.stores.endpointsStore (epKey e) e }
          w.st e).reverseRecordMap =
          (generateRecordsForHeadlessService kd w.st e svc).reverseRecordMap := by
        rw [handleEndpointAdd, addDNSUsingEndpoints, getServiceFromEndpoints]
        dsimp only
        rw [hS]
        dsimp only
        rw [if_neg (by rw [not_or]; exact ⟨hg1, hg2⟩)]
      rw [hrev, reverse_generateRecordsForHeadless, Bool.or_eq_true, hinv ip,
        attrEp_est_ainsert_iff]
      constructor
      · rintro (hh | (⟨k, s', h1, h2, h3⟩ | ⟨k, e', s', h1, h2, h3, h4, h5⟩))
        · exact Or.inr (Or.inl ⟨svc, hS, hg2, hnsetf, hh⟩)
        · exact Or.inl ⟨k, s', h1, h2, h3⟩
        · have hk : k ≠ epKey e := fun he => by rw [he, hok] at h1; cases h1
          exact Or.inr (Or.inr ⟨k, e', s', hk, h1, h2, h3, h4, h5⟩)
      · rintro (⟨k, s', h1, h2, h3⟩ |
          (⟨s', h2, _, _, h5⟩ | ⟨k, e', s', _, h1, h2, h3, h4, h5⟩))
        · exact Or.inr (Or.inl ⟨k, s', h1, h2, h3⟩)
        · exact Or.inl h5
        · exact Or.inr (Or.inr ⟨k, e', s', h1, h2, h3, h4, h5⟩)

theorem Inv0_epUpdate (kd : KubeDNSStatic) (w : World) (oldE newE : KEndpoints)
    (hwf : Wf w) (hok : EventOk w (.epUpdate oldE newE)) (hinv : Inv0 w) :
    Inv0 (step kd w (.epUpdate oldE newE)) := by
  simp only [EventOk] at hok
  obtain ⟨hkeys, hstored⟩ := hok
  simp only [step, Inv0]
  intro ip
  rcases hS : alookup w.stores.servicesStore (epKey newE) with _ | svc
  · have hrev : (handleEndpointUpdate kd
        { w.stores with endpointsStore := ainsert w.stores.endpointsStore (epKey newE) newE }
        w.st oldE newE).reverseRecordMap = w.st.reverseRecordMap := by
      simp only [handleEndpointUpdate]
      rw [getServiceFromEndpoints]
      dsimp only
      rw [hkeys, hS]
      dsimp only
      rw [handleEndpointAdd, addDNSUsingEndpoints, getServiceFromEndpoints]
      dsimp only
      rw [hS]
    rw [hrev, hinv ip, attrEp_est_ainsert_iff]
    constructor
    · rintro (⟨k, s', h1, h2, h3⟩ | ⟨k, e', s', h1, h2, h3, h4, h5⟩)
      · exact Or.inl ⟨k, s', h1, h2, h3⟩
      · have hk : k ≠ epKey newE := fun he => by rw [he, hS] at h2; cases h2
        exact Or.inr (Or.inr ⟨k, e', s', hk, h1, h2, h3, h4, h5⟩)
    · rintro (⟨k, s', h1, h2, h3⟩ |
        (⟨s', h2, _, _, _⟩ | ⟨k, e', s', _, h1, h2, h3, h4, h5⟩))
      · exact Or.inl ⟨k, s', h1, h2, h3⟩
      · rw [hS] at h2
        cases h2
      · exact Or.inr ⟨k, e', s', h1, h2, h3, h4, h5⟩
  · have svcEqU : ∀ {s' : KService},
        alookup w.stores.servicesStore (epKey newE) = some s' → s' = svc := by
      intro s' h
      rw [hS] at h
      injection h with h
      exact h.symm
    by_cases hset : isServiceIPSet svc = true
    · have hrev : (handleEndpointUpdate kd
          { w.stores with
            endpointsStore := ainsert w.stores.endpointsStore (epKey newE) newE }
          w.st oldE newE).reverseRecordMap = w.st.reverseRecordMap := by
        simp only [handleEndpointUpdate]
        rw [getServiceFromEndpoints]
        dsimp only
        rw [hkeys, hS]
        dsimp only
        rw [if_neg (by rw [hset]; simp)]
        rw [handleEndpointAdd, addDNSUsingEndpoints, getServiceFromEndpoints]
        dsimp only
        rw [hS]
        dsimp only
        rw [if_pos (Or.inl hset)]
      rw [hrev, hinv ip, attrEp_est_ainsert_iff]
      constructor
      · rintro (⟨k, s', h1, h2, h3⟩ | ⟨k, e', s', h1, h2, h3, h4, h5⟩)
        · exact Or.inl ⟨k, s', h1, h2, h3⟩
        · have hk : k ≠ epKey newE := fun he => by
            have hs' : s' = svc := svcEqU (he ▸ h2)
            rw [hs', hset] at h4
            cases h4
          exact Or.inr (Or.inr ⟨k, e', s', hk, h1, h2, h3, h4, h5⟩)
      · rintro (⟨k, s', h1, h2, h3⟩ |
          (⟨s', h2, _, h4, _⟩ | ⟨k, e', s', _, h1, h2, h3, h4, h5⟩))
        · exact Or.inl ⟨k, s', h1, h2, h3⟩
        · rw [svcEqU h2, hset] at h4
          cases h4
        · exact Or.inr ⟨k, e', s', h1, h2, h3, h4, h5⟩
    · have hsetf : isServiceIPSet svc = false := bool_ne_true hset
      have hAsvc : ∀ {k : ObjKey} {s' : KService}, alookup w.stores.servicesStore k = some s' →
          isServiceIPSet s' = true → ip ∈ getClusterIPs s' →
          hostnamedIn oldE ip = false := by
        intro k s' h1 h2 h3
        by_contra hA
        exact wf_svc_ep_disjoint hwf h1 hstored h2 h3
          (hostnamedIn_mem_epIPs (bool_ne_false hA))
      have hAep : ∀ {k : ObjKey} {e2 : KEndpoints}, k ≠ epKey newE →
          alookup w.stores.endpointsStore k = some e2 → hostnamedIn e2 ip = true →
          hostnamedIn oldE ip = false := by
        intro k e2 hk h1 h5
        by_contra hA
        exact wf_ep_ep_disjoint hwf h1 hstored hk (hostnamedIn_mem_epIPs h5)
          (hostnamedIn_mem_epIPs (bool_ne_false hA))
      by_cases hen : svc.specType = externalNameType
      · have hrev : amem (handleEndpointUpdate kd
            { w.stores with
              endpointsStore := ainsert w.stores.endpointsStore (epKey newE) newE }
            w.st oldE newE).reverseRecordMap ip =
            (!(hostnamedIn oldE ip && !(hostnamedIn newE ip)) &&
              amem w.st.reverseRecordMap ip) := by
          simp only [handleEndpointUpdate]
          rw [getServiceFromEndpoints]
          dsimp only
          rw [hkeys, hS]
          dsimp only
          rw [if_pos hsetf]
          rw [handleEndpointAdd, addDNSUsingEndpoints, getServiceFromEndpoints]
          dsimp only
          rw [hS]
          dsimp only
          rw [if_pos (Or.inr hen)]
          dsimp only
          rw [amem_foldl_aerase, ← amem_keys, amem_oldAddressMapPrune, amem_oldAddressMapInit]
        rw [hrev, attrEp_est_ainsert_iff]
        have hAfree : (attrSvc w.stores.servicesStore ip ∨
            attrEp w.stores.endpointsStore w.stores.servicesStore ip) →
            hostnamedIn oldE ip = false := by
          rintro (⟨k, s', h1, h2, h3⟩ | ⟨k, e2, s2, h1, h2, h3, h4, h5⟩)
          · exact hAsvc h1 h2 h3
          · by_cases hk : k = epKey newE
            · have hs2 : s2 = svc := svcEqU (hk ▸ h2)
              rw [hs2, hen] at h3
              exact absurd rfl h3
            · exact hAep hk h1 h5
        constructor
        · rintro hb
          rw [Bool.and_eq_true] at hb
          obtain ⟨_, hmem⟩ := hb
          have hattr := (hinv ip).mp hmem
          rcases hattr with ⟨k, s', h1, h2, h3⟩ | ⟨k, e2, s2, h1, h2, h3, h4, h5⟩
          · exact Or.inl ⟨k, s', h1, h2, h3⟩
          · have hk : k ≠ epKey newE := fun he => by
              have hs2 : s2 = svc := svcEqU (he ▸ h2)
              rw [hs2, hen] at h3
              exact absurd rfl h3
            exact Or.inr (Or.inr ⟨k, e2, s2, hk, h1, h2, h3, h4, h5⟩)
        · rintro hattr
          have hattr' : attrSvc w.stores.servicesStore ip ∨
              attrEp w.stores.endpointsStore w.stores.servicesStore ip := by
            rcases hattr with (⟨k, s', h1, h2, h3⟩ |
              (⟨s', h2, h3, _, _⟩ | ⟨k, e', s', _, h1, h2, h3, h4, h5⟩))
            · exact Or.inl ⟨k, s', h1, h2, h3⟩
            · rw [svcEqU h2, hen] at h3
              exact absurd rfl h3
            · exact Or.inr ⟨k, e', s', h1, h2, h3, h4, h5⟩
          have hmem := (hinv ip).mpr hattr'
          rw [hAfree hattr', hmem]
          rfl
      · have hsvc : getServiceFromEndpoints
            { w.stores with
              endpointsStore := ainsert w.stores.endpointsStore (epKey newE) newE }
            oldE = some svc := by
          rw [getServiceFromEndpoints]
          dsimp only
          rw [hkeys]
          exact hS
        have hrev := reverse_handleEndpointUpdate_headless kd
          { w.stores with
            endpointsStore := ainsert w.stores.endpointsStore (epKey newE) newE }
          w.st oldE newE svc hsvc hkeys hsetf hen ip
        rw [hrev, attrEp_est_ainsert_iff]
        constructor
        · rintro hb
          rw [Bool.or_eq_true] at hb
          rcases hb with hB | hb
          · exact Or.inr (Or.inl ⟨svc, hS, hen, hsetf, hB⟩)
          · rw [Bool.and_eq_true] at hb
            obtain ⟨hnab, hmem⟩ := hb
            have hattr := (hinv ip).mp hmem
            rcases hattr with ⟨k, s', h1, h2, h3⟩ | ⟨k, e2, s2, h1, h2, h3, h4, h5⟩
            · exact Or.inl ⟨k, s', h1, h2, h3⟩
            · by_cases hk : k = epKey newE
              · have he2 : e2 = oldE := by
                  rw [hk, hstored] at h1
                  injection h1 with h1
                  exact h1.symm
                subst he2
                rw [h5] at hnab
                cases hB : hostnamedIn newE ip
                · rw [hB] at hnab
                  cases hnab
                · exact Or.inr (Or.inl ⟨svc, hS, hen, hsetf, rfl⟩)
              · exact Or.inr (Or.inr ⟨k, e2, s2, hk, h1, h2, h3, h4, h5⟩)
        · rintro hattr
          rcases hattr with (⟨k, s', h1, h2, h3⟩ |
            (⟨s', h2, _, _, h5⟩ | ⟨k, e', s', hk, h1, h2, h3, h4, h5⟩))
          · have hmem := (hinv ip).mpr (Or.inl ⟨k, s', h1, h2, h3⟩)
            rw [hAsvc h1 h2 h3, hmem]
            simp
          · rw [h5]
            simp
          · have hmem := (hinv ip).mpr (Or.inr ⟨k, e', s', h1, h2, h3, h4, h5⟩)
            rw [hAep hk h1 h5, hmem]
            simp

theorem Inv0_epDelete (kd : KubeDNSStatic) (w : World) (e : KEndpoints)
    (hwf : Wf w) (hok : EventOk w (.epDelete e)) (hinv : Inv0 w) :
    Inv0 (step kd w (.epDelete e)) := by
  simp only [EventOk] at hok
  simp only [step, Inv0]
  intro ip
  rcases hS : alookup w.stores.servicesStore (epKey e) with _ | svc
  · have hrev : (handleEndpointDelete kd
        { w.stores with endpointsStore := aerase w.stores.endpointsStore (epKey e) }
        w.st e).reverseRecordMap = w.st.reverseRecordMap := by
      simp only [handleEndpointDelete]
      rw [getServiceFromEndpoints]
      dsimp only
      rw [hS]
    rw [hrev, hinv ip, attrEp_est_aerase_iff]
    constructor
    · rintro (⟨k, s', h1, h2, h3⟩ | ⟨k, e', s', h1, h2, h3, h4, h5⟩)
      · exact Or.inl ⟨k, s', h1, h2, h3⟩
      · have hk : k ≠ epKey e := fun he => by rw [he, hS] at h2; cases h2
        exact Or.inr ⟨k, e', s', hk, h1, h2, h3, h4, h5⟩
    · rintro (⟨k, s', h1, h2, h3⟩ | ⟨k, e', s', _, h1, h2, h3, h4, h5⟩)
      · exact Or.inl ⟨k, s', h1, h2, h3⟩
      · exact Or.inr ⟨k, e', s', h1, h2, h3, h4, h5⟩
  · have svcEqE : ∀ {s' : KService},
        alookup w.stores.servicesStore (epKey e) = some s' → s' = svc := by
      intro s' h
      rw [hS] at h
      injection h with h
      exact h.symm
    by_cases hset : isServiceIPSet svc = false
    · have hrev : amem (handleEndpointDelete kd
          { w.stores with endpointsStore := aerase w.stores.endpointsStore (epKey e) }
          w.st e).reverseRecordMap ip =
          (!(hostnamedIn e ip) && amem w.st.reverseRecordMap ip) := by
        simp only [handleEndpointDelete]
        rw [getServiceFromEndpoints]
        dsimp only
        rw [hS]
        dsimp only
        rw [if_pos hset]
        dsimp only
        rw [amem_epDeleteFold]
      rw [hrev, attrEp_est_aerase_iff]
      constructor
      · rintro hb
        rw [Bool.and_eq_true, Bool.not_eq_true'] at hb
        obtain ⟨hne, hmem⟩ := hb
        have hattr := (hinv ip).mp hmem
        rcases hattr with ⟨k, s', h1, h2, h3⟩ | ⟨k, e2, s2, h1, h2, h3, h4, h5⟩
        · exact Or.inl ⟨k, s', h1, h2, h3⟩
        · have hk : k ≠ epKey e := fun he => by
            have he2 : e2 = e := by
              rw [he, hok] at h1
              injection h1 with h1
              exact h1.symm
            rw [he2, hne] at h5
            cases h5
          exact Or.inr ⟨k, e2, s2, hk, h1, h2, h3, h4, h5⟩
      · rintro (⟨k, s', h1, h2, h3⟩ | ⟨k, e2, s2, hk, h1, h2, h3, h4, h5⟩)
        · have hmem := (hinv ip).mpr (Or.inl ⟨k, s', h1, h2, h3⟩)
          have hne : hostnamedIn e ip = false := by
            by_contra hc
            exact wf_svc_ep_disjoint hwf h1 hok h2 h3
              (hostnamedIn_mem_epIPs (bool_ne_false hc))
          rw [hne, hmem]
          rfl
        · have hmem := (hinv ip).mpr (Or.inr ⟨k, e2, s2, h1, h2, h3, h4, h5⟩)
          have hne : hostnamedIn e ip = false := by
            by_contra hc
            exact wf_ep_ep_disjoint hwf h1 hok hk (hostnamedIn_mem_epIPs h5)
              (hostnamedIn_mem_epIPs (bool_ne_false hc))
          rw [hne, hmem]
          rfl
    · have hset' : isServiceIPSet svc = true := bool_ne_false hset
      have hrev : (handleEndpointDelete kd
          { w.stores with endpointsStore := aerase w.stores.endpointsStore (epKey e) }
          w.st e).reverseRecordMap = w.st.reverseRecordMap := by
        simp only [handleEndpointDelete]
        rw [getServiceFromEndpoints]
        dsimp only
        rw [hS]
        dsimp only
        rw [if_neg (by rw [hset']; simp)]
      rw [hrev, hinv ip, attrEp_est_aerase_iff]
      constructor
      · rintro (⟨k, s', h1, h2, h3⟩ | ⟨k, e2, s2, h1, h2, h3, h4, h5⟩)
        · exact Or.inl ⟨k, s', h1, h2, h3⟩
        · have hk : k ≠ epKey e := fun he => by
            have hs2 : s2 = svc := svcEqE (he ▸ h2)
            rw [hs2, hset'] at h4
            cases h4
          exact Or.inr ⟨k, e2, s2, hk, h1, h2, h3, h4, h5⟩
      · rintro (⟨k, s', h1, h2, h3⟩ | ⟨k, e2, s2, _, h1, h2, h3, h4, h5⟩)
        · exact Or.inl ⟨k, s', h1, h2, h3⟩
        · exact Or.inr ⟨k, e2, s2, h1, h2, h3, h4, h5⟩

theorem hostnamedIn_intro {e : KEndpoints} {ss : EndpointSubset}
    {a : EndpointAddress} (hss : ss ∈ e.subsets) (ha : a ∈ ss.addresses)
    (hh : (getHostname a).2 = true) : hostnamedIn e a.ip = true := by
  rw [hostnamedIn, List.any_eq_true]
  refine ⟨ss, hss, ?_⟩
  rw [List.any_eq_true]
  refine ⟨a, ha, ?_⟩
  rw [Bool.and_eq_true, decide_eq_true_eq]
  exact ⟨hh, rfl⟩

theorem Inv0_step (kd : KubeDNSStatic) (w : World) (ev : DNSEvent)
    (hwf : Wf w) (hwf' : Wf (step kd w ev)) (hok : EventOk w ev) (hinv : Inv0 w) :
    Inv0 (step kd w ev) := by
  cases ev with
  | svcAdd s => exact Inv0_svcAdd kd w s hwf' hok hinv
  | svcUpdate oldS newS => exact Inv0_svcUpdate kd w oldS newS hwf' hok hinv
  | svcDelete s => exact Inv0_svcDelete kd w s hwf hok hinv
  | epAdd e => exact Inv0_epAdd kd w e hok hinv
  | epUpdate oldE newE => exact Inv0_epUpdate kd w oldE newE hwf hok hinv
  | epDelete e => exact Inv0_epDelete kd w e hwf hok hinv

theorem ValidTrace_wf (kd : KubeDNSStatic) (w : World) (tr : List DNSEvent)
    (h : ValidTrace kd w tr) : Wf w := by
  cases tr with
  | nil => exact h
  | cons ev rest => exact h.1

theorem Inv0_run (kd : KubeDNSStatic) (tr : List DNSEvent) : ∀ (w : World),
    ValidTrace kd w tr → Inv0 w → Inv0 (run kd w tr) := by
  induction tr with
  | nil =>
    intro w _ hinv
    exact hinv
  | cons ev rest ih =>
    intro w h hinv
    obtain ⟨hwf, hok, hrest⟩ := h
    exact ih (step kd w ev) hrest
      (Inv0_step kd w ev hwf (ValidTrace_wf kd (step kd w ev) rest hrest) hok hinv)

theorem ValidTrace_run_wf (kd : KubeDNSStatic) (tr : List DNSEvent) : ∀ (w : World),
    ValidTrace kd w tr → Wf (run kd w tr) := by
  induction tr with
  | nil =>
    intro w h
    exact h
  | cons ev rest ih =>
    intro w h
    exact ih (step kd w ev) h.2.2

theorem ReverseMapProperty_of {w : World} (hwf : Wf w) (hinv : Inv0 w) :
    ReverseMapProperty w := by
  constructor
  · intro k s h1 h2 ip hip
    exact (hinv ip).mpr (Or.inl ⟨k, s, h1, h2, hip⟩)
  · intro k e s h1 h2 h3 h4 ss hss a ha
    constructor
    · intro hh
      exact (hinv a.ip).mpr (Or.inr ⟨k, e, s, h1, h2, h3, h4, hostnamedIn_intro hss ha hh⟩)
    · intro hno
      by_contra hc
      have hmem : amem w.st.reverseRecordMap a.ip = true := bool_ne_false hc
      rcases (hinv a.ip).mp hmem with ⟨k', s', h1', h2', h3'⟩ |
        ⟨k', e', s', h1', h2', h3', h4', h5'⟩
      · exact wf_svc_ep_disjoint hwf h1' h1 h2' h3' (mem_epIPs_of hss ha)
      · by_cases hk : k' = k
        · have he' : e' = e := by
            rw [hk, h1] at h1'
            injection h1' with h1'
            exact h1'.symm
          rw [he'] at h5'
          exact wf_hostname_consistent hwf h1 hss ha hno h5'
        · exact wf_ep_ep_disjoint hwf h1' h1 hk (hostnamedIn_mem_epIPs h5')
            (mem_epIPs_of hss ha)

/-- C3 (amended): along any store-consistent, well-formed event trace from
the empty initial state — adds target absent keys, updates and deletes name
the stored object, service updates preserve the service flavor and cluster
IPs, a headless service is deleted only after its endpoints object, the IPs
owned by distinct stored objects are disjoint and hostname flags are per-IP
consistent — after every handler completes the reverse record map has an
entry for every cluster IP of every live cluster-IP service and for every
hostname-carrying endpoint address of a live headless service, and no entry
for any hostname-less endpoint address of a live headless service. Without
these delivery assumptions the claimed invariant is refuted by
`reverse_map_counterexample`. -/
theorem reverse_map_invariant (kd : KubeDNSStatic) (tr : List DNSEvent)
    (h : ValidTrace kd initialWorld tr) :
    ReverseMapProperty (run kd initialWorld tr) :=
  ReverseMapProperty_of (ValidTrace_run_wf kd tr initialWorld h)
    (Inv0_run kd tr initialWorld h Inv0_initial)

set_option maxRecDepth 10000 in
theorem reverse_map_invariant_witness :
    ValidTrace kdCluster initialWorld
      [DNSEvent.svcAdd svcHeadless, DNSEvent.epAdd epWithHostname] ∧
    ReverseMapProperty (run kdCluster initialWorld
      [DNSEvent.svcAdd svcHeadless, DNSEvent.epAdd epWithHostname]) :=
  ⟨by decide, reverse_map_invariant kdCluster
    [DNSEvent.svcAdd svcHeadless, DNSEvent.epAdd epWithHostname] (by decide)⟩

set_option maxRecDepth 10000 in
/-- Claim C3 as stated is false: delivering `staleReverseTrace` — a
store-consistent schedule in which the headless service is deleted while its
endpoints object is still present, the endpoints then lose their hostname,
and the service is re-created — leaves a stale reverse entry for a
hostname-less headless endpoint address. -/
theorem reverse_map_counterexample :
    ¬ ReverseMapProperty (run kdCluster initialWorld staleReverseTrace) := by
  intro h
  have h2 := ((h.2 (str "ns", str "hs") epNoHostname svcHeadless (by decide) (by decide)
      (by decide) (by decide) ⟨[⟨str "10.1.1.1", str ""⟩], [⟨str "dns", str "UDP", 53⟩]⟩
      (by decide) ⟨str "10.1.1.1", str ""⟩ (by decide)).2) (by decide)
  exact absurd h2 (by decide)
